import Mathlib

/-!
# Verification of the WhatsApp Health Assistant response-resolution pipeline

Shallow embedding of the core decision logic of the repository:

* `CustomRateLimiter.checkLimit` and the `dynamicRateLimiter` middleware
  (rate-limiter middleware module);
* `AIService.processHealthQuery`, `translateResponse`,
  `useKnowledgeBaseFallback`, `limitResponseLength`,
  `getDefaultErrorResponse` (src/services/aiService.js, the revision with
  the knowledge-base length limit and 0.5 fallback confidence);
* `KnowledgeBaseService.searchHealthInfo` and its matchers/formatters
  (src/services/knowledgeBaseService.js);
* `LanguageService.detectLanguage` / `isHinglish` / `translateText`
  (language service module).

Modelling conventions:
* JavaScript strings are modelled as Lean `String`s (sequences of Unicode
  scalar values); `String.prototype.toLowerCase` is modelled per-character
  (`Char.toLower`), which agrees with it on ASCII and on the Devanagari
  block appearing in this code base.
* Timestamps (`Date.now()`) are integers (milliseconds).
* Confidences are rationals; JavaScript's `x || d` on numbers maps
  `0`/missing to the default `d`.
* External calls (generation providers, the translation APIs, the detection
  APIs) are inputs of the embedded functions: an abstract outcome value
  describes what the external call did (threw / returned null / returned a
  value), exactly the distinctions the source code branches on.
* The knowledge-base corpus (`health_knowledge_base.json`, loaded at
  startup) is a parameter of the embedded knowledge-base functions.
-/

/-! ## Generic string helpers (JavaScript semantics) -/

/-- JavaScript `String.prototype.includes`: `listIncludes pat l` is true iff
`pat` occurs as a contiguous sublist of `l`. -/
def listIncludes (pat : List Char) : List Char → Bool
  | [] => pat.isEmpty
  | c :: rest => pat.isPrefixOf (c :: rest) || listIncludes pat rest

/-- `s.includes(pat)` for strings. -/
def strIncludes (s pat : String) : Bool :=
  listIncludes pat.data s.data

/-- JavaScript whitespace (`\s` in regexes, `String.prototype.trim`). -/
def isJsWS (c : Char) : Bool :=
  c ∈ [' ', '\t', '\n', '\r', '\x0b', '\x0c', '\u00a0', '\u1680',
       '\u2028', '\u2029', '\u202f', '\u205f', '\u3000', '\ufeff']
  || ('\u2000' ≤ c && c ≤ '\u200a')

/-- `text.toLowerCase()`, modelled per scalar value. -/
def jsToLower (s : String) : String :=
  String.mk (s.data.map Char.toLower)

/-- `s.split(sep)` for a single-character separator, keeping empty pieces
(JavaScript semantics: `'a  b'.split(' ') = ['a','','b']`). -/
def splitOnChar (sep : Char) : List Char → List (List Char)
  | [] => [[]]
  | c :: rest =>
    if c = sep then [] :: splitOnChar sep rest
    else
      match splitOnChar sep rest with
      | [] => [[c]]
      | w :: ws => (c :: w) :: ws

/-- `query.split(' ')` on strings. -/
def splitSingleSpace (s : String) : List String :=
  (splitOnChar ' ' s.data).map String.mk

theorem dropWhile_length_le (p : Char → Bool) (l : List Char) :
    (l.dropWhile p).length ≤ l.length := by
  induction l with
  | nil => simp
  | cons c rest ih =>
    by_cases h : p c
    · simpa [List.dropWhile, h] using Nat.le_succ_of_le ih
    · simp [List.dropWhile, h]

/-- Helper for `split(/\s+/)`: splitting on maximal whitespace runs.
`acc` accumulates the current piece (reversed); `inRun` records that the
previous scalar belonged to a whitespace run (so further whitespace is
absorbed into the same separator).  A leading or trailing run contributes
an empty piece — JavaScript semantics of splitting on the regex `\s+`. -/
def splitWSRunsGo : List Char → List Char → Bool → List (List Char)
  | [], acc, _ => [acc.reverse]
  | c :: rest, acc, inRun =>
    if isJsWS c then
      if inRun then splitWSRunsGo rest acc inRun
      else acc.reverse :: splitWSRunsGo rest [] true
    else splitWSRunsGo rest (c :: acc) false

/-- `text.split(/\s+/)`. -/
def splitWSRuns (s : String) : List String :=
  (splitWSRunsGo s.data [] false).map String.mk

/-- Drop JavaScript whitespace from both ends (`String.prototype.trim`). -/
def trimList (l : List Char) : List Char :=
  ((l.dropWhile isJsWS).reverse.dropWhile isJsWS).reverse

/-- `s.trim()` on strings. -/
def jsTrimStr (s : String) : String :=
  String.mk (trimList s.data)

/-! ## Admission controller: `CustomRateLimiter.checkLimit`

```js
checkLimit(key, windowMs = 60000, maxRequests = 5) {
  const now = Date.now();
  const userRequests = this.store.get(key) || [];
  const validRequests = userRequests.filter(timestamp => now - timestamp < windowMs);
  if (validRequests.length >= maxRequests) {
    return { allowed: false, resetTime: validRequests[0] + windowMs, remaining: 0, total: maxRequests };
  }
  validRequests.push(now);
  this.store.set(key, validRequests);
  return { allowed: true, resetTime: now + windowMs, remaining: maxRequests - validRequests.length, total: maxRequests };
}
```

The per-key stored timestamp list is made explicit; the function returns the
result object together with the new stored list for that key (unchanged on
denial: the code only writes `this.store` in the allow branch).
`resetTime` is an `Option Int`: `none` models the JavaScript `NaN` arising
from `validRequests[0]` on an empty list (only possible when
`maxRequests = 0`). -/

structure CheckResult where
  allowed : Bool
  resetTime : Option Int
  remaining : Int
  total : Nat
deriving Repr, DecidableEq

/-- `now - timestamp < windowMs`: the filter predicate of `checkLimit`. -/
def inWindow (now windowMs t : Int) : Bool :=
  now - t < windowMs

/-- `CustomRateLimiter.checkLimit`, explicit in the per-key state. -/
def checkLimit (now windowMs : Int) (maxRequests : Nat) (stored : List Int) :
    CheckResult × List Int :=
  let validRequests := stored.filter (inWindow now windowMs)
  if maxRequests ≤ validRequests.length then
    ({ allowed := false,
       resetTime := validRequests.head?.map (· + windowMs),
       remaining := 0,
       total := maxRequests }, stored)
  else
    let updated := validRequests ++ [now]
    ({ allowed := true,
       resetTime := some (now + windowMs),
       remaining := (maxRequests : Int) - updated.length,
       total := maxRequests }, updated)

/-- The timestamps of the admitted calls of a call sequence, starting from a
given stored list: each call runs `checkLimit` on the current state and the
allow branch both reports `allowed` and (being the only branch that writes
the store) updates the state. -/
def allowedTimes (windowMs : Int) (maxRequests : Nat) :
    List Int → List Int → List Int
  | _store, [] => []
  | store, now :: rest =>
    let step := checkLimit now windowMs maxRequests store
    if step.1.allowed then now :: allowedTimes windowMs maxRequests step.2 rest
    else allowedTimes windowMs maxRequests step.2 rest

/-- Membership of a trailing window `(T - windowMs, T]`. -/
def inTrailing (T windowMs t : Int) : Bool :=
  inWindow T windowMs t && decide (t ≤ T)

theorem filter_filter_of_imp (p q : Int → Bool) (h : ∀ a, q a = true → p a = true)
    (l : List Int) : (l.filter p).filter q = l.filter q := by
  induction l with
  | nil => rfl
  | cons a t ih =>
    by_cases hq : q a = true
    · have hp := h a hq
      simp [List.filter_cons, hp, hq, ih]
    · by_cases hp : p a = true <;>
        simp [List.filter_cons, hp, hq, ih]

theorem length_filter_le_of_imp (p q : Int → Bool) (h : ∀ a, p a = true → q a = true)
    (l : List Int) : (l.filter p).length ≤ (l.filter q).length := by
  induction l with
  | nil => simp
  | cons a t ih =>
    by_cases hp : p a = true
    · have hq := h a hp
      simpa [List.filter_cons, hp, hq] using ih
    · by_cases hq : q a = true <;>
        · simp only [List.filter_cons, hp, hq]
          first
          | exact Nat.le_succ_of_le ih
          | exact ih

/-- Branch behaviour of `checkLimit`: a call is allowed iff strictly fewer
than `maxRequests` stored timestamps are inside the trailing window; the
allow branch appends `now` to the in-window timestamps; the deny branch
leaves the stored list untouched and reports `remaining = 0`. -/
theorem checkLimit_spec (now w : Int) (maxR : Nat) (stored : List Int) :
    ((checkLimit now w maxR stored).1.allowed
        = decide ((stored.filter (inWindow now w)).length < maxR))
  ∧ ((checkLimit now w maxR stored).1.allowed = true →
        (checkLimit now w maxR stored).2 = stored.filter (inWindow now w) ++ [now])
  ∧ ((checkLimit now w maxR stored).1.allowed = false →
        (checkLimit now w maxR stored).2 = stored ∧
        (checkLimit now w maxR stored).1.remaining = 0) := by
  unfold checkLimit
  by_cases h : maxR ≤ (stored.filter (inWindow now w)).length
  · simp [h, Nat.not_lt.mpr h]
  · simp [h, Nat.not_le.mp h]

/-- Invariant induction behind the sliding-window bound.  `A` is the list
of previously admitted timestamps, `store` the stored list for the key, and
`b` a lower bound on the remaining call times.  The stored list agrees with
`A` on every window cast from a time `≥ b`, and at most `maxR` admitted
timestamps lie in any trailing window; both facts are preserved by the
remaining calls. -/
theorem allowed_window_bound_aux (w : Int) (maxR : Nat) :
    ∀ (calls store A : List Int) (b : Int),
      (∀ t ∈ calls, b ≤ t) →
      calls.Pairwise (· ≤ ·) →
      (∀ now : Int, b ≤ now →
        store.filter (inWindow now w) = A.filter (inWindow now w)) →
      (∀ T : Int, (A.filter (inTrailing T w)).length ≤ maxR) →
      ∀ T : Int,
        ((A ++ allowedTimes w maxR store calls).filter (inTrailing T w)).length ≤ maxR := by
  intro calls
  induction calls with
  | nil =>
    intro store A b _ _ _ hcount T
    simpa [allowedTimes] using hcount T
  | cons now rest ih =>
    intro store A b hb hpw hfil hcount T
    have hbnow : b ≤ now := hb now (List.mem_cons_self _ _)
    have hrest_ge : ∀ t ∈ rest, now ≤ t := (List.pairwise_cons.mp hpw).1
    have hrest_pw : rest.Pairwise (· ≤ ·) := (List.pairwise_cons.mp hpw).2
    have hV : store.filter (inWindow now w) = A.filter (inWindow now w) :=
      hfil now hbnow
    by_cases hc : maxR ≤ (store.filter (inWindow now w)).length
    · -- denial: state unchanged, admitted list unchanged
      have hstep : allowedTimes w maxR store (now :: rest)
          = allowedTimes w maxR store rest := by
        simp [allowedTimes, checkLimit, hc]
      rw [hstep]
      exact ih store A now hrest_ge hrest_pw
        (fun now' h' => hfil now' (le_trans hbnow h')) hcount T
    · -- admission: `now` is appended to both the store and the admitted list
      have hstep : allowedTimes w maxR store (now :: rest)
          = now :: allowedTimes w maxR (store.filter (inWindow now w) ++ [now]) rest := by
        simp [allowedTimes, checkLimit, hc]
      rw [hstep]
      have himp : ∀ now' : Int, now ≤ now' →
          ∀ a : Int, inWindow now' w a = true → inWindow now w a = true := by
        intro now' h' a ha
        simp only [inWindow, decide_eq_true_eq] at ha ⊢
        omega
      have hfil' : ∀ now' : Int, now ≤ now' →
          (store.filter (inWindow now w) ++ [now]).filter (inWindow now' w)
            = (A ++ [now]).filter (inWindow now' w) := by
        intro now' h'
        rw [List.filter_append, List.filter_append, hV,
          filter_filter_of_imp (inWindow now w) (inWindow now' w) (himp now' h')]
      have hcount' : ∀ T' : Int,
          ((A ++ [now]).filter (inTrailing T' w)).length ≤ maxR := by
        intro T'
        rw [List.filter_append]
        by_cases hT : inTrailing T' w now = true
        · have h1 : ∀ a : Int, inTrailing T' w a = true → inWindow now w a = true := by
            intro a ha
            simp only [inTrailing, inWindow, Bool.and_eq_true, decide_eq_true_eq] at ha hT ⊢
            omega
          have h2 : (A.filter (inTrailing T' w)).length
              ≤ (A.filter (inWindow now w)).length :=
            length_filter_le_of_imp _ _ h1 A
          have h3 : (A.filter (inWindow now w)).length < maxR := by
            rw [← hV]; exact Nat.not_le.mp hc
          rw [show ([now].filter (inTrailing T' w)) = [now] by simp [hT]]
          simp only [List.length_append, List.length_cons, List.length_nil]
          omega
        · simp only [List.filter_cons, Bool.not_eq_true] at hT ⊢
          simp [hT]
          exact hcount T'
      have := ih (store.filter (inWindow now w) ++ [now]) (A ++ [now]) now
        hrest_ge hrest_pw hfil' hcount' T
      calc ((A ++ now :: allowedTimes w maxR (store.filter (inWindow now w) ++ [now]) rest).filter
              (inTrailing T w)).length
          = (((A ++ [now]) ++ allowedTimes w maxR (store.filter (inWindow now w) ++ [now]) rest).filter
              (inTrailing T w)).length := by
            rw [List.append_assoc, List.singleton_append]
        _ ≤ maxR := this

/-- C3: for every identity key and every monotone sequence of admission
checks run with fixed `windowMs` and `maxRequests`, at most `maxRequests`
admitted timestamps lie in any trailing window `(T - windowMs, T]`; a call
is allowed iff fewer than `maxRequests` stored timestamps are inside the
trailing window at that moment; the current time is appended on allow; and
every denial reports `remaining = 0`. -/
theorem rateLimiter_sliding_window_bound (w : Int) (maxR : Nat) (calls : List Int)
    (hmono : calls.Pairwise (· ≤ ·)) :
    (∀ T : Int, ((allowedTimes w maxR [] calls).filter (inTrailing T w)).length ≤ maxR)
  ∧ (∀ (now : Int) (store : List Int),
      ((checkLimit now w maxR store).1.allowed
          = decide ((store.filter (inWindow now w)).length < maxR))
      ∧ ((checkLimit now w maxR store).1.allowed = true →
            (checkLimit now w maxR store).2 = store.filter (inWindow now w) ++ [now])
      ∧ ((checkLimit now w maxR store).1.allowed = false →
            (checkLimit now w maxR store).1.remaining = 0)) := by
  constructor
  · intro T
    cases calls with
    | nil => simp [allowedTimes]
    | cons c rest =>
      have hb : ∀ t ∈ c :: rest, c ≤ t := by
        intro t ht
        rcases List.mem_cons.mp ht with h | h
        · exact h ▸ le_refl c
        · exact (List.pairwise_cons.mp hmono).1 t h
      have := allowed_window_bound_aux w maxR (c :: rest) [] [] c hb hmono
        (fun _ _ => rfl) (by simp) T
      simpa using this
  · intro now store
    exact ⟨(checkLimit_spec now w maxR store).1, (checkLimit_spec now w maxR store).2.1,
      fun h => ((checkLimit_spec now w maxR store).2.2 h).2⟩

theorem rateLimiter_sliding_window_bound_witness :
    List.Pairwise (· ≤ ·) ([0, 0, 0, 0] : List Int)
  ∧ ((∀ T : Int,
        ((allowedTimes 60000 3 [] [0, 0, 0, 0]).filter (inTrailing T 60000)).length ≤ 3)
    ∧ (∀ (now : Int) (store : List Int),
        ((checkLimit now 60000 3 store).1.allowed
            = decide ((store.filter (inWindow now 60000)).length < 3))
        ∧ ((checkLimit now 60000 3 store).1.allowed = true →
              (checkLimit now 60000 3 store).2 = store.filter (inWindow now 60000) ++ [now])
        ∧ ((checkLimit now 60000 3 store).1.allowed = false →
              (checkLimit now 60000 3 store).1.remaining = 0))) :=
  ⟨by decide, rateLimiter_sliding_window_bound 60000 3 [0, 0, 0, 0] (by decide)⟩

/-- C9: a denied admission check leaves the stored timestamp list for the
key untouched (no append, no removal), and — on the sorted stores produced
by monotone call sequences — reports `resetTime` equal to the oldest
in-window timestamp plus `windowMs`; only allowed calls mutate the store. -/
theorem rateLimiter_denial_preserves_store (now w : Int) (maxR : Nat) (store : List Int)
    (hsorted : store.Pairwise (· ≤ ·))
    (hden : (checkLimit now w maxR store).1.allowed = false) :
    (checkLimit now w maxR store).2 = store
  ∧ (1 ≤ maxR → store.filter (inWindow now w) ≠ [])
  ∧ ∀ m, (store.filter (inWindow now w)).head? = some m →
      (∀ t ∈ store.filter (inWindow now w), m ≤ t)
      ∧ (checkLimit now w maxR store).1.resetTime = some (m + w) := by
  have hc : maxR ≤ (store.filter (inWindow now w)).length := by
    have h1 := (checkLimit_spec now w maxR store).1
    rw [hden] at h1
    have := of_decide_eq_false h1.symm
    omega
  refine ⟨((checkLimit_spec now w maxR store).2.2 hden).1, ?_, ?_⟩
  · intro h1
    have : 0 < (store.filter (inWindow now w)).length := lt_of_lt_of_le h1 hc
    exact List.ne_nil_of_length_pos this
  · intro m hm
    have hpair : (store.filter (inWindow now w)).Pairwise (· ≤ ·) :=
      hsorted.filter _
    constructor
    · intro t ht
      rcases List.head?_eq_some_iff.mp hm with ⟨tl, htl⟩
      rw [htl] at ht hpair
      rcases List.mem_cons.mp ht with h | h
      · exact h ▸ le_refl m
      · exact (List.pairwise_cons.mp hpair).1 t h
    · simp only [checkLimit, if_pos hc]
      rw [hm]
      rfl

theorem rateLimiter_denial_preserves_store_witness :
    List.Pairwise (· ≤ ·) ([0, 0, 0] : List Int)
  ∧ (checkLimit 1 60000 3 [0, 0, 0]).1.allowed = false
  ∧ ((checkLimit 1 60000 3 [0, 0, 0]).2 = [0, 0, 0]
    ∧ (1 ≤ 3 → ([0, 0, 0] : List Int).filter (inWindow 1 60000) ≠ [])
    ∧ ∀ m, (([0, 0, 0] : List Int).filter (inWindow 1 60000)).head? = some m →
        (∀ t ∈ ([0, 0, 0] : List Int).filter (inWindow 1 60000), m ≤ t)
        ∧ (checkLimit 1 60000 3 [0, 0, 0]).1.resetTime = some (m + 60000)) :=
  ⟨by decide, by decide,
    rateLimiter_denial_preserves_store 1 60000 3 [0, 0, 0] (by decide) (by decide)⟩

/-! ## Admission middleware: `dynamicRateLimiter`

```js
const dynamicRateLimiter = (req, res, next) => {
  const userKey = req.body?.From || req.ip;
  const message = (req.body?.Body || '').toLowerCase();
  const emergencyKeywords = [ 'emergency', 'urgent', 'help', 'ambulance', 'hospital',
    'apatkal', 'madad', 'turant', 'jaldi', 'bachao' ];
  const isEmergency = emergencyKeywords.some(keyword => message.includes(keyword));
  if (isEmergency) {
    const result = customRateLimiter.checkLimit(userKey + ':emergency', 60000, 8);
    if (!result.allowed) { return res.status(429).json({...}); }
  } else {
    const result = customRateLimiter.checkLimit(userKey + ':conversation', 60000, 3);
    if (!result.allowed) { ... return res.status(429).json({...}); }
  }
  req.rateLimit = customRateLimiter.getStatus(userKey);
  next();
};
```

The limiter's `Map` is modelled as a total function from keys to timestamp
lists (`store.get(key) || []`).  The decision is `next` (request admitted)
or `reject` carrying the raw `resetTime` of the denying check (the
429 body is presentation only and not modelled).  Known divergence, in the
non-emergency deny branch only: the source there calls
`this.getLocalizedRateLimitMessage(message)`, but `this` at module scope
does not carry that function, so the real code raises a TypeError while
building the 429 body instead of delivering it; the model abstracts that
branch as a plain rejection.  No theorem below depends on that branch. -/

/-- The limiter's store: per-key timestamp lists, empty by default. -/
def RLStore : Type := String → List Int

/-- `this.store.set(key, value)`. -/
def storeSet (st : RLStore) (key : String) (v : List Int) : RLStore :=
  fun k => if k = key then v else st k

/-- The middleware's emergency keyword list. -/
def rlEmergencyKeywords : List String :=
  ["emergency", "urgent", "help", "ambulance", "hospital",
   "apatkal", "madad", "turant", "jaldi", "bachao"]

/-- The middleware's decision: pass the request on, or answer 429. -/
inductive RLDecision where
  | reject (resetTime : Option Int)
  | next
deriving Repr, DecidableEq

/-- `dynamicRateLimiter`, explicit in the clock and the limiter store. -/
def dynamicRateLimiter (now : Int) (userKey body : String) (st : RLStore) :
    RLDecision × RLStore :=
  let message := jsToLower body
  let isEmergency := rlEmergencyKeywords.any (fun keyword => strIncludes message keyword)
  if isEmergency then
    let step := checkLimit now 60000 8 (st (userKey ++ ":emergency"))
    if step.1.allowed then (.next, storeSet st (userKey ++ ":emergency") step.2)
    else (.reject step.1.resetTime, st)
  else
    let step := checkLimit now 60000 3 (st (userKey ++ ":conversation"))
    if step.1.allowed then (.next, storeSet st (userKey ++ ":conversation") step.2)
    else (.reject step.1.resetTime, st)

/-- C6: a message matching an emergency keyword is checked only against the
emergency policy (window 60000 ms, ceiling 8) under the key
`userKey + ':emergency'`; it is admitted whenever fewer than 8 timestamps of
that key are inside the trailing window, irrespective of the state of the
standard `userKey + ':conversation'` window. -/
theorem dynamicRateLimiter_emergency_admits (now : Int) (userKey body : String)
    (st : RLStore)
    (hE : rlEmergencyKeywords.any (fun keyword => strIncludes (jsToLower body) keyword) = true)
    (hcount : ((st (userKey ++ ":emergency")).filter (inWindow now 60000)).length < 8) :
    (dynamicRateLimiter now userKey body st).1 = .next := by
  have hallow : (checkLimit now 60000 8 (st (userKey ++ ":emergency"))).1.allowed = true := by
    rw [(checkLimit_spec now 60000 8 (st (userKey ++ ":emergency"))).1]
    exact decide_eq_true hcount
  simp [dynamicRateLimiter, hE, hallow]

/-- Concrete instance of C6: the standard window of identity `u` is
exhausted (3 recent timestamps on `u:conversation`), yet the emergency
message is admitted. -/
theorem dynamicRateLimiter_emergency_admits_witness :
    (rlEmergencyKeywords.any
        (fun keyword => strIncludes (jsToLower "Emergency hai, please help") keyword) = true)
  ∧ ((((fun k => if k = "u:conversation" then [999999, 999998, 999997] else []) : RLStore)
        ("u" ++ ":emergency")).filter (inWindow 1000000 60000)).length < 8
  ∧ 3 ≤ ((((fun k => if k = "u:conversation" then [999999, 999998, 999997] else []) : RLStore)
        ("u" ++ ":conversation")).filter (inWindow 1000000 60000)).length
  ∧ (dynamicRateLimiter 1000000 "u" "Emergency hai, please help"
        (fun k => if k = "u:conversation" then [999999, 999998, 999997] else [])).1 = .next :=
  ⟨by decide, by decide, by decide,
    dynamicRateLimiter_emergency_admits 1000000 "u" "Emergency hai, please help"
      (fun k => if k = "u:conversation" then [999999, 999998, 999997] else [])
      (by decide) (by decide)⟩

/-! ## Language classifier: `LanguageService.detectLanguage` / `isHinglish`

```js
async detectLanguage(text) {
  try {
    const hindiPattern = /[ऀ-ॿ]/;
    const englishPattern = /^[a-zA-Z\s.,!?'"()-]+$/;
    if (hindiPattern.test(text)) { return 'hi'; }
    if (englishPattern.test(text)) { return 'en'; }
    if (this.isHinglish(text)) { return 'hinglish'; }
    return await this.detectViaAPI(text) || 'en';
  } catch (error) { return 'en'; }
}

isHinglish(text) {
  const hinglishKeywords = [ ... ];
  const words = text.toLowerCase().split(/\s+/);
  const hinglishMatches = words.filter(word =>
    hinglishKeywords.some(keyword => word.includes(keyword)));
  return hinglishMatches.length > 0 && words.length > 1;
}
```

The optional external detection call (`detectViaAPI`) is an input
`api : Option String`: `none` models both "no API configured" and "API
failed" (the code converts every failure to `null`, and the outer `catch`
also yields `'en'`). -/

/-- One Devanagari scalar (`/[ऀ-ॿ]/`). -/
def hasDevanagari (text : String) : Bool :=
  text.data.any (fun c => decide (0x900 ≤ c.toNat) && decide (c.toNat ≤ 0x97F))

/-- One scalar of the conservative English pattern class. -/
def englishChar (c : Char) : Bool :=
  ('a' ≤ c && c ≤ 'z') || ('A' ≤ c && c ≤ 'Z') || isJsWS c
  || c ∈ ['.', ',', '!', '?', '\'', '"', '(', ')', '-']

/-- `/^[a-zA-Z\s.,!?'"()-]+$/.test(text)`. -/
def englishPattern (text : String) : Bool :=
  !text.data.isEmpty && text.data.all englishChar

/-- The fixed romanized-Hindi function-word list (duplicates as in the
source). -/
def hinglishKeywords : List String :=
  ["hai", "hain", "kya", "kaise", "kahan", "kab", "kyun", "kaun",
   "mein", "main", "tu", "tum", "aap", "hum", "woh", "yeh", "ye",
   "kar", "karo", "karna", "ho", "hona", "tha", "thi", "the",
   "acha", "accha", "nahi", "nahin", "haan", "ji", "bhi", "baat",
   "kuch", "koi", "sabhi", "sab", "agar", "lekin", "par", "ke",
   "ki", "ka", "se", "mein", "pe", "par", "chahiye", "jaiye",
   "dijiye", "kijiye", "boliye", "bataye", "samjha", "samjhaye"]

/-- `LanguageService.isHinglish`. -/
def isHinglish (text : String) : Bool :=
  let words := splitWSRuns (jsToLower text)
  let hinglishMatches := words.filter
    (fun word => hinglishKeywords.any (fun keyword => strIncludes word keyword))
  decide (0 < hinglishMatches.length) && decide (1 < words.length)

/-- `LanguageService.detectLanguage`, with the external detection call as an
input (`api = none`: not configured or failed; `some ""` is falsy in the
`|| 'en'`). -/
def detectLanguage (api : Option String) (text : String) : String :=
  if hasDevanagari text then "hi"
  else if englishPattern text then "en"
  else if isHinglish text then "hinglish"
  else
    match api with
    | some s => if s = "" then "en" else s
    | none => "en"

/-! ### C7: token membership in the function-word list forces `hinglish`

If some whitespace token of the lowercased text *is* an entry of the
romanized-Hindi list, then `isHinglish` holds: the entry trivially contains
itself, and the `words.length > 1` requirement is automatic — every list
entry consists solely of lowercase Latin letters, so a text whose lowered
form is a single such token would have matched the conservative Latin
pattern already (uppercase originals lower into range, everything else is
untouched by `toLowerCase`), contradicting the hypothesis that it does
not. -/

theorem isPrefixOf_self (l : List Char) : l.isPrefixOf l = true := by
  induction l with
  | nil => rfl
  | cons c rest ih => simp [List.isPrefixOf, ih]

theorem listIncludes_refl (l : List Char) : listIncludes l l = true := by
  cases l with
  | nil => rfl
  | cons c rest => simp [listIncludes, isPrefixOf_self]

theorem splitWSRunsGo_ne_nil : ∀ (l acc : List Char) (b : Bool),
    splitWSRunsGo l acc b ≠ [] := by
  intro l
  induction l with
  | nil =>
    intro acc b
    simp [splitWSRunsGo]
  | cons c rest ih =>
    intro acc b
    cases hc : isJsWS c with
    | true =>
      cases b with
      | true => simpa [splitWSRunsGo, hc] using ih acc true
      | false => simp [splitWSRunsGo, hc]
    | false => simpa [splitWSRunsGo, hc] using ih (c :: acc) false

/-- A whitespace scalar in the input yields at least two pieces (the run
emits the accumulated piece, and the tail contributes at least one more). -/
theorem splitWSRunsGo_two_of_ws : ∀ (l acc : List Char),
    (∃ c ∈ l, isJsWS c = true) → 2 ≤ (splitWSRunsGo l acc false).length := by
  intro l
  induction l with
  | nil =>
    intro acc h
    rcases h with ⟨c, hc, _⟩
    exact absurd hc (List.not_mem_nil c)
  | cons c rest ih =>
    intro acc h
    cases hc : isJsWS c with
    | true =>
      have hlen1 : 0 < (splitWSRunsGo rest [] true).length :=
        List.length_pos.mpr (splitWSRunsGo_ne_nil rest [] true)
      simp only [splitWSRunsGo, hc, if_true, Bool.false_eq_true, if_false,
        List.length_cons]
      omega
    | false =>
      have h' : ∃ c' ∈ rest, isJsWS c' = true := by
        rcases h with ⟨c', hm, hws⟩
        rcases List.mem_cons.mp hm with rfl | hm'
        · rw [hc] at hws
          exact absurd hws (by simp)
        · exact ⟨c', hm', hws⟩
      simpa [splitWSRunsGo, hc] using ih (c :: acc) h'

/-- With no whitespace scalar in the input, the split is a single piece:
the accumulator followed by the whole input. -/
theorem splitWSRunsGo_no_ws : ∀ (l acc : List Char),
    (∀ c ∈ l, isJsWS c = false) → splitWSRunsGo l acc false = [acc.reverse ++ l] := by
  intro l
  induction l with
  | nil =>
    intro acc _
    simp [splitWSRunsGo]
  | cons c rest ih =>
    intro acc h
    have hc : isJsWS c = false := h c (List.mem_cons_self _ _)
    rw [show splitWSRunsGo (c :: rest) acc false = splitWSRunsGo rest (c :: acc) false by
      simp [splitWSRunsGo, hc]]
    rw [ih (c :: acc) (fun c' hc' => h c' (List.mem_cons_of_mem _ hc'))]
    simp

/-- Every entry of the function-word list is non-empty and consists solely
of lowercase Latin letters. -/
theorem hinglishKeywords_lowercase :
    ∀ w ∈ hinglishKeywords, w ≠ "" ∧ ∀ c ∈ w.data, ('a' ≤ c ∧ c ≤ 'z') := by
  decide

/-- A scalar whose `toLowerCase` image is a lowercase Latin letter is
itself a Latin letter (uppercase originals are shifted into range, all
other scalars are left unchanged). -/
theorem latin_of_toLower_bounds {c : Char} (h1 : 'a' ≤ c.toLower)
    (h2 : c.toLower ≤ 'z') : ('a' ≤ c ∧ c ≤ 'z') ∨ ('A' ≤ c ∧ c ≤ 'Z') := by
  unfold Char.toLower at h1 h2
  by_cases hc : c.toNat ≥ 65 ∧ c.toNat ≤ 90
  · exact Or.inr ⟨hc.1, hc.2⟩
  · simp only [hc, if_false] at h1 h2
    exact Or.inl ⟨h1, h2⟩

/-- A non-empty text of Latin letters matches the conservative pattern. -/
theorem englishPattern_of_letters {text : String} (hne : text ≠ "")
    (hall : ∀ c ∈ text.data, ('a' ≤ c ∧ c ≤ 'z') ∨ ('A' ≤ c ∧ c ≤ 'Z')) :
    englishPattern text = true := by
  unfold englishPattern
  have h1 : text.data.isEmpty = false := by
    cases hd : text.data with
    | nil =>
      exfalso
      apply hne
      have := congrArg String.mk hd
      simpa using this
    | cons a l => rfl
  have h2 : text.data.all englishChar = true := by
    rw [List.all_eq_true]
    intro c hc
    unfold englishChar
    simp only [Bool.or_eq_true, Bool.and_eq_true, decide_eq_true_eq]
    rcases hall c hc with ⟨ha, hb⟩ | ⟨ha, hb⟩
    · exact Or.inl (Or.inl (Or.inl ⟨ha, hb⟩))
    · exact Or.inl (Or.inl (Or.inr ⟨ha, hb⟩))
  simp [h1, h2]

/-- C7: for every text with no Devanagari scalar that does not match the
conservative Latin-letter/punctuation pattern, if some whitespace token of
the (lowercased) text is a member of the fixed romanized-Hindi
function-word list, the classifier returns `"hinglish"`, whatever the
external detection outcome. -/
theorem detectLanguage_hinglish_of_token_membership (api : Option String)
    (text : String)
    (hdev : hasDevanagari text = false)
    (heng : englishPattern text = false)
    (hmem : ∃ w ∈ splitWSRuns (jsToLower text), w ∈ hinglishKeywords) :
    detectLanguage api text = "hinglish" := by
  obtain ⟨w, hw_mem, hw_kw⟩ := hmem
  have hmatch : 0 < ((splitWSRuns (jsToLower text)).filter
      (fun word => hinglishKeywords.any (fun keyword => strIncludes word keyword))).length := by
    have hpred : hinglishKeywords.any (fun keyword => strIncludes w keyword) = true := by
      rw [List.any_eq_true]
      exact ⟨w, hw_kw, listIncludes_refl w.data⟩
    have hwf : w ∈ (splitWSRuns (jsToLower text)).filter
        (fun word => hinglishKeywords.any (fun keyword => strIncludes word keyword)) :=
      List.mem_filter.mpr ⟨hw_mem, hpred⟩
    exact List.length_pos.mpr (List.ne_nil_of_mem hwf)
  have hlen : 1 < (splitWSRuns (jsToLower text)).length := by
    by_cases hws : ∃ c ∈ (jsToLower text).data, isJsWS c = true
    · have h2 := splitWSRunsGo_two_of_ws (jsToLower text).data [] hws
      unfold splitWSRuns
      rw [List.length_map]
      omega
    · exfalso
      push_neg at hws
      have hws' : ∀ c ∈ (jsToLower text).data, isJsWS c = false :=
        fun c hc => Bool.eq_false_iff.mpr (hws c hc)
      have hsingle : splitWSRuns (jsToLower text) = [jsToLower text] := by
        unfold splitWSRuns
        rw [splitWSRunsGo_no_ws _ [] hws']
        simp
      rw [hsingle] at hw_mem
      have hw_eq : w = jsToLower text := List.mem_singleton.mp hw_mem
      have hkw := hinglishKeywords_lowercase w hw_kw
      have hne : text ≠ "" := by
        intro he
        subst he
        exact hkw.1 (hw_eq.trans rfl)
      have hall : ∀ c ∈ text.data, ('a' ≤ c ∧ c ≤ 'z') ∨ ('A' ≤ c ∧ c ≤ 'Z') := by
        intro c hc
        have hmem2 : c.toLower ∈ (jsToLower text).data :=
          List.mem_map_of_mem Char.toLower hc
        rw [← hw_eq] at hmem2
        have hb := hkw.2 c.toLower hmem2
        exact latin_of_toLower_bounds hb.1 hb.2
      rw [englishPattern_of_letters hne hall] at heng
      exact absurd heng (by simp)
  have hh : isHinglish text = true := by
    unfold isHinglish
    simp only [Bool.and_eq_true, decide_eq_true_eq]
    exact ⟨hmatch, hlen⟩
  simp [detectLanguage, hdev, heng, hh]

theorem detectLanguage_hinglish_of_token_membership_witness :
    hasDevanagari "hai kya123" = false
  ∧ englishPattern "hai kya123" = false
  ∧ (∃ w ∈ splitWSRuns (jsToLower "hai kya123"), w ∈ hinglishKeywords)
  ∧ detectLanguage none "hai kya123" = "hinglish" :=
  ⟨by decide, by decide, by decide,
    detectLanguage_hinglish_of_token_membership none "hai kya123"
      (by decide) (by decide) (by decide)⟩

/-! ## Response finalizer, translation step: `AIService.translateResponse`

```js
async translateResponse(response, targetLanguage) {
  try {
    if (targetLanguage === 'en') { return response; }
    if (targetLanguage === 'hi' || targetLanguage === 'hinglish') {
      const translated = await languageService.translateText(response, targetLanguage);
      return translated || response;
    }
    return response;
  } catch (error) { return response; }
}
```

The call to `languageService.translateText` is an input: it threw, or it
returned a value (`none` for `null`/`undefined`; `some ""` is falsy in
`translated || response`).  The second component of the result records
whether the translation call was made at all. -/

/-- Outcome of the external translation call. -/
inductive TransOutcome where
  | throws
  | returns (t : Option String)
deriving Repr, DecidableEq

/-- The translation call failed: it threw, or produced a null/empty
result. -/
def transFailed : TransOutcome → Prop
  | .throws => True
  | .returns none => True
  | .returns (some t) => t = ""

/-- `AIService.translateResponse`; the boolean records whether
`languageService.translateText` was invoked. -/
def translateResponse (tr : TransOutcome) (response targetLanguage : String) :
    String × Bool :=
  if targetLanguage = "en" then (response, false)
  else if targetLanguage = "hi" || targetLanguage = "hinglish" then
    match tr with
    | .throws => (response, true)
    | .returns none => (response, true)
    | .returns (some t) => (if t = "" then response else t, true)
  else (response, false)

/-- C8: for target languages `hi`/`hinglish`, a failing translation call
(throw, null or empty result) leaves the text unchanged, and the step never
raises (it is a total function); for target `en` the text is returned
unchanged and the translation call is not made at all. -/
theorem translateResponse_failure_keeps_text (tr : TransOutcome) (response lang : String) :
    ((lang = "hi" ∨ lang = "hinglish") → transFailed tr →
      (translateResponse tr response lang).1 = response)
  ∧ translateResponse tr response "en" = (response, false) := by
  constructor
  · intro hlang hfail
    have hne : lang ≠ "en" := by
      rcases hlang with h | h <;> simp [h]
    have hor : (lang = "hi" || lang = "hinglish") = true := by
      rcases hlang with h | h <;> simp [h]
    cases tr with
    | throws => simp [translateResponse, hne, hor]
    | returns t =>
      cases t with
      | none => simp [translateResponse, hne, hor]
      | some v =>
        have hv : v = "" := hfail
        simp [translateResponse, hne, hor, hv]
  · rfl

theorem translateResponse_failure_keeps_text_witness :
    (translateResponse .throws "rest and hydrate" "hi").1 = "rest and hydrate"
  ∧ translateResponse .throws "rest and hydrate" "en" = ("rest and hydrate", false) :=
  ⟨(translateResponse_failure_keeps_text .throws "rest and hydrate" "hi").1
      (Or.inl rfl) trivial,
    (translateResponse_failure_keeps_text .throws "rest and hydrate" "hi").2⟩

/-! ## Knowledge engine: `KnowledgeBaseService`

The static corpus (`health_knowledge_base.json`, read at startup) is a
parameter: a list of keyed disease records, each holding an `en` entry and
optional `hi`/`hinglish` entries (`diseaseData[language] || diseaseData.en`),
plus the `emergency_contacts.india` list.  All fixed tables and canned texts
are transcribed verbatim from `knowledgeBaseService.js`. -/

/-- A per-language text table with English fallback
(`table[language] || table.en`). -/
structure LangText where
  en : String
  hi : String
  hinglish : String
deriving Repr, DecidableEq

/-- `table[language] || table.en` for the three-language tables of the
source (an unknown language key reads `undefined`, hence the fallback). -/
def LangText.getFor (t : LangText) (lang : String) : String :=
  if lang = "en" then t.en
  else if lang = "hi" then t.hi
  else if lang = "hinglish" then t.hinglish
  else t.en

/-- Canned advice for the direct symptom `fever`. -/
def feverText : LangText where
  en := "For fever, rest and drink plenty of water. Take paracetamol 500mg every 6 hours if needed. Use cold compress on forehead. See doctor if temperature exceeds 103°F or persists for more than 3 days."
  hi := "बुखार के लिए आराम करें और बहुत पानी पिएं। जरूरत पड़ने पर हर 6 घंटे में पैरासिटामोल 500mg लें। माथे पर ठंडी पट्टी रखें। यदि तापमान 103°F से अधिक हो या 3 दिन से अधिक रहे तो डॉक्टर से मिलें।"
  hinglish := "Fever ke liye aaram karo aur bahut paani piyo. Jarurat padne par har 6 ghante mein paracetamol 500mg lo. Mathe par thandi patti rakho. Agar temperature 103°F se zyada ho ya 3 din se zyada rahe to doctor se milo."

/-- Canned advice for the direct symptom `headache`. -/
def headacheText : LangText where
  en := "For headache, rest in a quiet, dark room. Apply cold or warm compress on forehead. Take paracetamol or ibuprofen as directed. Stay hydrated. See doctor if severe or persistent."
  hi := "सिरदर्द के लिए शांत, अंधेरे कमरे में आराम करें। माथे पर ठंडी या गर्म पट्टी लगाएं। निर्देशानुसार पैरासिटामोल या इबुप्रोफेन लें। हाइड्रेटेड रहें। यदि गंभीर या लगातार हो तो डॉक्टर से मिलें।"
  hinglish := "Headache ke liye shaant, andhera kamre mein aaram karo. Mathe par thandi ya garm patti lagao. Direction ke according paracetamol ya ibuprofen lo. Hydrated raho. Agar serious ya lagatar ho to doctor se milo."

/-- Canned advice for the direct symptom `cough`. -/
def coughText : LangText where
  en := "For cough, drink warm water with honey and lemon. Use steam inhalation. Avoid cold drinks and ice cream. Take cough syrup if needed. See doctor if blood in cough or persists for more than 2 weeks."
  hi := "खांसी के लिए शहद और नींबू के साथ गर्म पानी पिएं। भाप का सेवन करें। ठंडे पेय और आइसक्रीम से बचें। जरूरत पड़ने पर खांसी की सिरप लें। यदि खांसी में खून या 2 सप्ताह से अधिक हो तो डॉक्टर से मिलें।"
  hinglish := "Cough ke liye honey aur lemon ke saath garm paani piyo. Steam inhalation karo. Thande drinks aur ice cream se bacho. Jarurat padne par cough syrup lo. Agar cough mein blood ho ya 2 hafta se zyada ho to doctor se milo."

/-- General-health advice block for the topic `exercise`. -/
def exerciseAdvice : LangText where
  en := "🏃‍♂️ **Exercise Guidelines:**\n\n• Aim for 150 minutes of moderate exercise weekly\n• Include both cardio and strength training\n• Start slowly and gradually increase intensity\n• Walking, cycling, swimming are excellent options\n• Exercise with friends for motivation\n\n💡 **Tip:** Even 10-15 minutes of daily activity can make a difference!"
  hi := "🏃‍♂️ **व्यायाम दिशानिर्देश:**\n\n• साप्ताहिक 150 मिनट मध्यम व्यायाम का लक्ष्य रखें\n• कार्डियो और शक्ति प्रशिक्षण दोनों शामिल करें\n• धीरे-धीरे शुरू करें और धीरे-धीरे तीव्रता बढ़ाएं\n• चलना, साइकिल चलाना, तैरना उत्कृष्ट विकल्प हैं\n• प्रेरणा के लिए दोस्तों के साथ व्यायाम करें\n\n💡 **सुझाव:** दैनिक 10-15 मिनट की गतिविधि भी फर्क ला सकती है!"
  hinglish := "🏃‍♂️ **Exercise Guidelines:**\n\n• Weekly 150 minutes moderate exercise ka target rakhiye\n• Cardio aur strength training dono include kariye\n• Slowly start kariye aur gradually intensity badhaye\n• Walking, cycling, swimming excellent options hain\n• Motivation ke liye friends ke saath exercise kariye\n\n💡 **Tip:** Daily 10-15 minutes ki activity bhi difference la sakti hai!"

/-- General-health advice block for the topic `diet`. -/
def dietAdvice : LangText where
  en := "🥗 **Healthy Diet Guidelines:**\n\n• Eat 5 servings of fruits and vegetables daily\n• Choose whole grains over refined grains\n• Include lean proteins (fish, chicken, legumes)\n• Limit processed and sugary foods\n• Stay hydrated with 8-10 glasses of water\n• Practice portion control\n\n💡 **Tip:** Plan your meals in advance for better nutrition!"
  hi := "🥗 **स्वस्थ आहार दिशानिर्देश:**\n\n• प्रतिदिन फल और सब्जियों के 5 हिस्से खाएं\n• परिष्कृत अनाज के बजाय साबुत अनाज चुनें\n• दुबले प्रोटीन शामिल करें (मछली, चिकन, दालें)\n• प्रसंस्कृत और मीठे खाद्य पदार्थों को सीमित करें\n• 8-10 गिलास पानी पीकर हाइड्रेटेड रहें\n• भाग नियंत्रण का अभ्यास करें\n\n💡 **सुझाव:** बेहतर पोषण के लिए अपने भोजन की पहले से योजना बनाएं!"
  hinglish := "🥗 **Healthy Diet Guidelines:**\n\n• Daily fruits aur vegetables ke 5 servings khaye\n• Refined grains ke bajaye whole grains choose kariye\n• Lean proteins include kariye (fish, chicken, dal)\n• Processed aur sugary foods limit kariye\n• 8-10 glass paani peeke hydrated rahe\n• Portion control practice kariye\n\n💡 **Tip:** Better nutrition ke liye apne meals advance mein plan kariye!"

/-- The fixed medical disclaimer (`getDisclaimer`). -/
def kbDisclaimer : LangText where
  en := "\n⚠️ **DISCLAIMER:** This information is for educational purposes only. Always consult a qualified healthcare professional for medical advice, diagnosis, or treatment."
  hi := "\n⚠️ **चेतावनी:** यह जानकारी केवल शैक्षिक उद्देश्यों के लिए है। चिकित्सा सलाह, निदान या उपचार के लिए हमेशा योग्य स्वास्थ्य पेशेवर से सलाह लें।"
  hinglish := "\n⚠️ **DISCLAIMER:** Ye information sirf educational purpose ke liye hai. Medical advice, diagnosis ya treatment ke liye hamesha qualified healthcare professional se consult kariye."

/-- The knowledge base default answer (`getDefaultResponse`). -/
def kbDefaultResponse : LangText where
  en := "I understand you have a health concern. While I have information about common health conditions, I recommend consulting with a healthcare professional for personalized advice. You can also ask me about specific diseases, symptoms, or general health topics. 🏥"
  hi := "मैं समझता हूं कि आपकी स्वास्थ्य संबंधी चिंता है। जबकि मेरे पास सामान्य स्वास्थ्य स्थितियों की जानकारी है, मैं व्यक्तिगत सलाह के लिए स्वास्थ्य पेशेवर से परामर्श की सलाह देता हूं। आप मुझसे विशिष्ट बीमारियों, लक्षणों या सामान्य स्वास्थ्य विषयों के बारे में भी पूछ सकते हैं। 🏥"
  hinglish := "Main samajh sakta hun ki aapki health concern hai. Mere paas common health conditions ki information hai, lekin personalized advice ke liye healthcare professional se consult karne ki recommend karta hun. Aap mujhse specific diseases, symptoms ya general health topics ke baare mein bhi pooch sakte hain. 🏥"

/-- The orchestrator default apology texts (`AIService.getDefaultErrorResponse`). -/
def aiDefaultResponses : LangText where
  en := "I apologize, but I'm having trouble processing your health query right now. Please try again later or consult with a healthcare professional for immediate assistance. 🏥"
  hi := "माफ करें, मुझे अभी आपके स्वास्थ्य प्रश्न को समझने में परेशानी हो रही है। कृपया बाद में फिर से कोशिश करें या तत्काल सहायता के लिए किसी स्वास्थ्य पेशेवर से सलाह लें। 🏥"
  hinglish := "Sorry, mujhe abhi aapke health question ko process karne mein problem ho rahi hai. Please baad mein try kariye ya immediate help ke liye doctor se consult kariye. 🏥"

/-- One localized disease record of the corpus (`KnowledgeEntry`).
Optional fields model JSON keys the record may lack (the formatter guards
them with truthiness checks). -/
structure DiseaseInfo where
  name : String
  definition : String
  types : Option (List String) := none
  symptoms : List String
  causes : Option (List String) := none
  management : List String
  prevention : List String
  emergency_signs : Option (List String) := none
  home_remedies : Option (List String) := none
deriving Repr, DecidableEq

/-- A corpus disease record: localized variants with guaranteed English
entry (the code reads `diseaseData[language] || diseaseData['en']`). -/
structure DiseaseData where
  en : DiseaseInfo
  hi : Option DiseaseInfo := none
  hinglish : Option DiseaseInfo := none
deriving Repr, DecidableEq

/-- `diseaseData[language] || diseaseData['en']`. -/
def DiseaseData.forLang (d : DiseaseData) (lang : String) : DiseaseInfo :=
  if lang = "hi" then d.hi.getD d.en
  else if lang = "hinglish" then d.hinglish.getD d.en
  else d.en

/-- The loaded knowledge base (`this.knowledgeBase`). -/
structure Corpus where
  diseases : List (String × DiseaseData)
  emergencyContactsIndia : List String
deriving Repr, DecidableEq

/-- `Array.prototype.join('\n')`. -/
def joinNL : List String → String
  | [] => ""
  | [s] => s
  | s :: rest => s ++ "\n" ++ joinNL rest

/-- `KnowledgeBaseService.getDisclaimer`. -/
def getDisclaimer (lang : String) : String :=
  kbDisclaimer.getFor lang

/-- `KnowledgeBaseService.getDefaultResponse`. -/
def getDefaultResponse (lang : String) : String :=
  kbDefaultResponse.getFor lang

/-- The section list assembled by `formatDiseaseInfo` before `join('\n')`
(sections for missing optional fields are omitted). -/
def diseaseSections (d : DiseaseInfo) (lang : String) : List String :=
  ["📋 **" ++ d.name ++ "**\n", d.definition ++ "\n"]
  ++ (match d.types with
      | some ts => ["**प्रकार / Types:**"] ++ ts.map (fun t => "• " ++ t) ++ [""]
      | none => [])
  ++ (["**लक्षण / Symptoms:**"] ++ d.symptoms.map (fun s => "• " ++ s) ++ [""])
  ++ (match d.causes with
      | some cs => ["**कारण / Causes:**"] ++ cs.map (fun c => "• " ++ c) ++ [""]
      | none => [])
  ++ (["**प्रबंधन / Management:**"] ++ d.management.map (fun m => "• " ++ m) ++ [""])
  ++ (["**रोकथाम / Prevention:**"] ++ d.prevention.map (fun p => "• " ++ p) ++ [""])
  ++ (match d.emergency_signs with
      | some es => ["🚨 **आपातकालीन संकेत / Emergency Signs:**"]
          ++ es.map (fun s => "⚠️ " ++ s) ++ [""]
      | none => [])
  ++ (match d.home_remedies with
      | some hs => ["🏠 **घरेलू उपाय / Home Remedies:**"]
          ++ hs.map (fun r => "• " ++ r) ++ [""]
      | none => [])
  ++ [getDisclaimer lang]

/-- `KnowledgeBaseService.formatDiseaseInfo`. -/
def formatDiseaseInfo (d : DiseaseInfo) (lang : String) : String :=
  joinNL (diseaseSections d lang)

/-- The numbered candidate blocks of `formatMultipleDiseaseMatches`
(`forEach((match, index) => ...)`, labels start at 1). -/
def multiMatchEntries : Nat → List (String × DiseaseInfo) → List String
  | _, [] => []
  | i, (_, info) :: rest =>
    [toString (i + 1) ++ ". **" ++ info.name ++ "**", "   " ++ info.definition, ""]
      ++ multiMatchEntries (i + 1) rest

/-- The title ternary of `formatMultipleDiseaseMatches`. -/
def multiMatchTitle (lang : String) : String :=
  if lang = "hi" then "🔍 **आपके लक्षण निम्नलिखित स्थितियों से संबंधित हो सकते हैं:**"
  else if lang = "hinglish" then "🔍 **Aapke symptoms ye conditions se related ho sakte hain:**"
  else "🔍 **Your symptoms may be related to the following conditions:**"

/-- The advice ternary of `formatMultipleDiseaseMatches`. -/
def multiMatchAdvice (lang : String) : String :=
  if lang = "hi" then "💡 **सुझाव:** सटीक निदान के लिए कृपया डॉक्टर से मिलें और अपने सभी लक्षणों के बारे में बताएं।"
  else if lang = "hinglish" then "💡 **Suggestion:** Accurate diagnosis ke liye doctor se miliye aur apne saare symptoms ke baare mein bataiye."
  else "💡 **Suggestion:** Please consult a doctor for accurate diagnosis and discuss all your symptoms."

/-- `KnowledgeBaseService.formatMultipleDiseaseMatches`. -/
def formatMultipleDiseaseMatches (ms : List (String × DiseaseInfo)) (lang : String) :
    String :=
  joinNL ([multiMatchTitle lang, ""] ++ multiMatchEntries 0 ms
    ++ [multiMatchAdvice lang, "", getDisclaimer lang])

/-- The direct-symptom table of `getDirectSymptomResponse`
(`commonSymptoms`), in object order. -/
def commonSymptomTable : List (String × LangText) :=
  [("fever", feverText), ("headache", headacheText), ("cough", coughText)]

/-- The transliterated-variant table of `getDirectSymptomResponse`
(`hindiSymptoms`), in object order. -/
def hindiSymptomTable : List (String × String) :=
  [("bukhar", "fever"), ("garmi", "fever"), ("temperature", "fever"),
   ("sir dard", "headache"), ("sar dard", "headache"), ("headache", "headache"),
   ("khansi", "cough"), ("khasi", "cough")]

/-- `KnowledgeBaseService.getDirectSymptomResponse` (the query is already
lowercased by the caller). -/
def getDirectSymptomResponse (query lang : String) : Option String :=
  match commonSymptomTable.find? (fun p =>
      [p.1, p.1 ++ "s", "i have " ++ p.1, p.1 ++ " problem"].any
        (fun keyword => strIncludes query keyword)) with
  | some p => some (p.2.getFor lang)
  | none =>
    match hindiSymptomTable.find? (fun p => strIncludes query p.1) with
    | some p =>
      match commonSymptomTable.find? (fun q => q.1 == p.2) with
      | some q => some (q.2.getFor lang)
      | none => none
    | none => none

/-- `KnowledgeBaseService.checkKeywordMatch`: compares each space-separated
query word with each keyword by substring containment in both directions. -/
def checkKeywordMatch (query : String) (keywords : List String) : Bool :=
  let queryWords := splitSingleSpace query
  keywords.any (fun keyword =>
    queryWords.any (fun word => strIncludes keyword word || strIncludes word keyword))

/-- `KnowledgeBaseService.searchDiseases`: first record whose key contains
the query, whose lowercased name contains the query, or which matches by
keyword; formatted fully. -/
def searchDiseases (corpus : Corpus) (query lang : String) : Option String :=
  (corpus.diseases.find? (fun p =>
      let info := p.2.forLang lang
      strIncludes p.1 query
        || strIncludes (jsToLower info.name) query
        || checkKeywordMatch query [p.1, jsToLower info.name])).map
    (fun p => formatDiseaseInfo (p.2.forLang lang) lang)

/-- The symptom-synonym table of `checkSymptomKeywords`
(`symptomKeywords`), in object order. -/
def symptomSynonyms : List (String × List String) :=
  [("pain", ["pain", "hurt", "ache", "dard", "takleef"]),
   ("fever", ["fever", "temperature", "bukhar", "garmi"]),
   ("headache", ["headache", "head pain", "sir dard", "sar dard"]),
   ("cough", ["cough", "khansi", "khasi"]),
   ("breath", ["breath", "breathing", "saans", "sansh"])]

/-- `KnowledgeBaseService.checkSymptomKeywords`. -/
def checkSymptomKeywords (query symptom : String) : Bool :=
  symptomSynonyms.any (fun p =>
    p.2.any (fun keyword => strIncludes query keyword || strIncludes symptom keyword))

/-- Result selection of `KnowledgeBaseService.searchBySymptoms`: one match
is formatted fully, several are formatted as a ranked candidate summary. -/
def symptomMatchResult (matched : List (String × DiseaseInfo)) (lang : String) :
    Option String :=
  match matched with
  | [] => none
  | [single] => some (formatDiseaseInfo single.2 lang)
  | _ => some (formatMultipleDiseaseMatches matched lang)

/-- The records whose symptom list matches the query. -/
def symptomMatches (corpus : Corpus) (query lang : String) :
    List (String × DiseaseInfo) :=
  (corpus.diseases.filter (fun p =>
      (p.2.forLang lang).symptoms.any (fun sym =>
        strIncludes (jsToLower sym) query
          || checkSymptomKeywords query (jsToLower sym)))).map
    (fun p => (p.1, p.2.forLang lang))

/-- `KnowledgeBaseService.searchBySymptoms`: collect every record with a
matching symptom and format the match set. -/
def searchBySymptoms (corpus : Corpus) (query lang : String) : Option String :=
  symptomMatchResult (symptomMatches corpus query lang) lang

/-- The topic keyword tables of `searchGeneralHealth` (`healthKeywords`),
in object order. -/
def generalHealthKeywords : List (String × List String) :=
  [("exercise", ["exercise", "workout", "physical activity", "vyayam", "kasrat"]),
   ("diet", ["diet", "food", "nutrition", "eating", "khana", "bhojan", "aahar"]),
   ("sleep", ["sleep", "rest", "neend", "aaram"]),
   ("water", ["water", "hydration", "paani", "jal"]),
   ("stress", ["stress", "tension", "worry", "chinta", "pareshani"])]

/-- `KnowledgeBaseService.getGeneralHealthAdvice`: the advice object only
holds `exercise` and `diet`; other topics fall through
(`advice[topic]?.[language] || advice[topic]?.['en'] || getDefaultResponse`). -/
def getGeneralHealthAdvice (topic lang : String) : String :=
  if topic = "exercise" then exerciseAdvice.getFor lang
  else if topic = "diet" then dietAdvice.getFor lang
  else getDefaultResponse lang

/-- `KnowledgeBaseService.searchGeneralHealth`. -/
def searchGeneralHealth (query lang : String) : Option String :=
  (generalHealthKeywords.find? (fun p =>
      p.2.any (fun keyword => strIncludes query keyword))).map
    (fun p => getGeneralHealthAdvice p.1 lang)

/-- The title ternary of `getEmergencyContacts` (the `hinglish` and
English branches carry the same literal in the source). -/
def ecTitle (lang : String) : String :=
  if lang = "hi" then "🚨 **आपातकालीन संपर्क नंबर (भारत):**"
  else if lang = "hinglish" then "🚨 **Emergency Contact Numbers (India):**"
  else "🚨 **Emergency Contact Numbers (India):**"

/-- The urgent-advice ternary of `getEmergencyContacts`. -/
def ecUrgentAdvice (lang : String) : String :=
  if lang = "hi" then "\n⚠️ **तत्काल चिकित्सा आपातकाल में 112 डायल करें**"
  else if lang = "hinglish" then "\n⚠️ **Medical emergency mein turant 112 dial kariye**"
  else "\n⚠️ **For immediate medical emergency, dial 112**"

/-- `KnowledgeBaseService.getEmergencyContacts`
(`knowledgeBase.emergency_contacts?.india || []`). -/
def getEmergencyContacts (corpus : Corpus) (lang : String) : String :=
  joinNL ([ecTitle lang, ""]
    ++ corpus.emergencyContactsIndia.map (fun contact => "📞 " ++ contact)
    ++ [ecUrgentAdvice lang])

/-- The emergency keyword list of `searchEmergencyInfo` (duplicates as in
the source). -/
def kbEmergencyKeywords : List String :=
  ["emergency", "urgent", "help", "ambulance", "hospital",
   "emergency", "apatkal", "madad", "ambulance", "aspatal"]

/-- `KnowledgeBaseService.searchEmergencyInfo`. -/
def searchEmergencyInfo (corpus : Corpus) (query lang : String) : Option String :=
  if kbEmergencyKeywords.any (fun keyword => strIncludes query keyword) then
    some (getEmergencyContacts corpus lang)
  else none

/-- `KnowledgeBaseService.searchHealthInfo`: lowercase the query, then try
direct symptoms, disease names, symptoms, general topics and emergency
keywords in order; when nothing matches, answer the generic default.  The
function always returns a string (never `null`). -/
def searchHealthInfo (corpus : Corpus) (query lang : String) : String :=
  let lowerQuery := jsToLower query
  match getDirectSymptomResponse lowerQuery lang with
  | some r => r
  | none =>
  match searchDiseases corpus lowerQuery lang with
  | some r => r
  | none =>
  match searchBySymptoms corpus lowerQuery lang with
  | some r => r
  | none =>
  match searchGeneralHealth lowerQuery lang with
  | some r => r
  | none =>
  match searchEmergencyInfo corpus lowerQuery lang with
  | some r => r
  | none => getDefaultResponse lang

/-- No stage of the knowledge engine matched the query: the engine found
no knowledge for it (it then substitutes its generic default text). -/
def kbNoMatch (corpus : Corpus) (query lang : String) : Bool :=
  let lowerQuery := jsToLower query
  (getDirectSymptomResponse lowerQuery lang).isNone
  && (searchDiseases corpus lowerQuery lang).isNone
  && (searchBySymptoms corpus lowerQuery lang).isNone
  && (searchGeneralHealth lowerQuery lang).isNone
  && (searchEmergencyInfo corpus lowerQuery lang).isNone

/-! ## Response finalizer, length bounding: `AIService.limitResponseLength`

```js
limitResponseLength(response, maxLength = 200) {
  if (!response || response.length <= maxLength) { return response; }
  let cleanResponse = response
    .replace(/[📍💊🌡️🏥💧🍯🧄🫖]/g, '')
    .replace(/\*\*(.*?)\*\*/g, '$1')
    .replace(/\*/g, '')
    .replace(/\n•/g, ',')
    .replace(/\n/g, ' ')
    .trim();
  if (cleanResponse.length > maxLength) {
    cleanResponse = cleanResponse.substring(0, maxLength - 50).trim();
    const lastPeriod = cleanResponse.lastIndexOf('.');
    if (lastPeriod > 50) { cleanResponse = cleanResponse.substring(0, lastPeriod + 1); }
    cleanResponse += ' See doctor if symptoms persist.';
  }
  return cleanResponse;
}
```

Lengths count Unicode scalar values (JavaScript counts UTF-16 units; the
two agree outside astral characters).  The emoji character class is
modelled as removal of the listed scalars (plus the variation selector
`U+FE0F` the class contains).  The two asterisk replacements compose to
the removal of every `*` scalar: the first deletes the `**` pairs around a
non-greedy group and keeps the group text, the second deletes every
remaining `*`; together they delete exactly the `*` characters — they are
modelled as one filter. -/

/-- Scalars removed by the emoji character class (including `U+FE0F`,
which the class spells as part of `🌡️`). -/
def emojiStripChars : List Char :=
  ['📍', '💊', '🌡', '🏥', '💧', '🍯', '🧄', '🫖', '\ufe0f']

/-- `.replace(/\n•/g, ',')`: left-to-right, non-overlapping. -/
def replaceBullets : List Char → List Char
  | [] => []
  | [c] => [c]
  | c :: c2 :: rest =>
    if c = '\n' ∧ c2 = '•' then ',' :: replaceBullets rest
    else c :: replaceBullets (c2 :: rest)

/-- The cleaning chain of `limitResponseLength` (emoji filter, asterisk
removal, bullet join, newline flattening, trim). -/
def cleanData (l : List Char) : List Char :=
  trimList ((replaceBullets
      ((l.filter (fun c => !emojiStripChars.contains c)).filter (fun c => c != '*'))).map
    (fun c => if c = '\n' then ' ' else c))

/-- `cleanResponse.lastIndexOf('.')` (as an option instead of `-1`). -/
def lastIndexOfChar (c : Char) (l : List Char) : Option Nat :=
  match l.reverse.findIdx? (fun x => x == c) with
  | some j => some (l.length - 1 - j)
  | none => none

/-- The fixed tail appended by the truncation branch. -/
def seeDoctorTail : String := " See doctor if symptoms persist."

/-- The truncation of the cleaned text: cut to `maxLength - 50`, trim, and
cut back to the last `'.'` when it sits after position 50
(`substring(0, maxLength - 50).trim()` then the `lastIndexOf('.')` cut). -/
def truncatedCore (clean : List Char) (maxLength : Nat) : List Char :=
  match lastIndexOfChar '.' (trimList (clean.take (maxLength - 50))) with
  | some i =>
    if 50 < i then (trimList (clean.take (maxLength - 50))).take (i + 1)
    else trimList (clean.take (maxLength - 50))
  | none => trimList (clean.take (maxLength - 50))

/-- `AIService.limitResponseLength` (called with `maxLength = 200`). -/
def limitResponseLength (response : String) (maxLength : Nat) : String :=
  if response.length ≤ maxLength then response
  else
    let cleanResponse := cleanData response.data
    if maxLength < cleanResponse.length then
      String.mk (truncatedCore cleanResponse maxLength) ++ seeDoctorTail
    else String.mk cleanResponse

/-! ## Provider orchestrator: `AIService.processHealthQuery`

```js
this.providers = [
  { name: 'gemini', service: geminiService, priority: 1 },
  { name: 'huggingface', service: huggingfaceService, priority: 2 },
  { name: 'openai', service: openaiService, priority: 3 }
];
...
for (const provider of this.providers) {
  try {
    const result = await provider.service.processHealthQuery({...});
    if (result && result.message && result.message.trim().length > 0) {
      const translatedResponse = await this.translateResponse(result.message, language);
      return { message: translatedResponse, provider: provider.name, language,
               confidence: result.confidence || 0.8, timestamp: ... };
    }
  } catch (error) { continue; }
}
return await this.useKnowledgeBaseFallback(query, language, context);
```

Each provider call is an input describing its outcome; the trace of
providers actually invoked is computed alongside the result.  The
`timestamp` field (wall clock only) is not modelled. -/

/-- What a provider's `processHealthQuery` returned (`result.message` /
`result.confidence` may each be absent). -/
structure ProviderResult where
  message : Option String
  confidence : Option ℚ
deriving Repr, DecidableEq

/-- Outcome of one provider call: it threw, or returned a (possibly null)
result object. -/
inductive ProviderOutcome where
  | throws
  | returns (r : Option ProviderResult)
deriving Repr, DecidableEq

/-- The acceptance test of the provider loop:
`result && result.message && result.message.trim().length > 0` (an empty
message string is falsy, and whitespace-only messages fail the trim test).
Returns the accepted message and reported confidence. -/
def validMessage : ProviderOutcome → Option (String × Option ℚ)
  | .throws => none
  | .returns none => none
  | .returns (some r) =>
    match r.message with
    | none => none
    | some m => if jsTrimStr m = "" then none else some (m, r.confidence)

/-- The provider list built by the `AIService` constructor, with outcomes
for the query under consideration. -/
def aiProviders (o1 o2 o3 : ProviderOutcome) : List (String × Nat × ProviderOutcome) :=
  [("gemini", 1, o1), ("huggingface", 2, o2), ("openai", 3, o3)]

/-- The provider loop: first structurally valid result wins; the second
component is the trace of provider names invoked (in order). -/
def runProviders : List (String × Nat × ProviderOutcome) →
    Option (String × String × Option ℚ) × List String
  | [] => (none, [])
  | (name, _, o) :: rest =>
    match validMessage o with
    | some (m, c) => (some (name, m, c), [name])
    | none => ((runProviders rest).1, name :: (runProviders rest).2)

/-- `result.confidence || 0.8` (JavaScript falsiness: absent or `0` reads
the default). -/
def jsFalsyConf : Option ℚ → ℚ
  | none => 0.8
  | some c => if c = 0 then 0.8 else c

/-- The terminal artifact of the pipeline (`timestamp` not modelled). -/
structure AIResult where
  message : String
  provider : String
  language : String
  confidence : ℚ
deriving Repr, DecidableEq

/-- `AIService.getDefaultErrorResponse`. -/
def getDefaultErrorResponse (lang : String) : AIResult :=
  { message := aiDefaultResponses.getFor lang
    provider := "default"
    language := lang
    confidence := 0.5 }

/-- `AIService.useKnowledgeBaseFallback`: honour the
`DISABLE_KNOWLEDGE_BASE_FALLBACK` flag, run the knowledge-base search
(`kbThrows` models the call throwing, handled by the `catch`), length-limit
a non-empty answer and tag it `knowledge_base` with confidence 0.5;
otherwise answer the default apology. -/
def useKnowledgeBaseFallback (disableFlag kbThrows : Bool) (corpus : Corpus)
    (query lang : String) : AIResult :=
  if disableFlag then getDefaultErrorResponse lang
  else if kbThrows then getDefaultErrorResponse lang
  else
    let knowledgeResponse := searchHealthInfo corpus query lang
    if knowledgeResponse = "" then getDefaultErrorResponse lang
    else
      { message := limitResponseLength knowledgeResponse 200
        provider := "knowledge_base"
        language := lang
        confidence := 0.5 }

/-- `AIService.processHealthQuery`: ordered provider fallback, then the
knowledge-base fallback.  Total by construction — every failure mode of
the source is caught and produces a result object. -/
def processHealthQuery (o1 o2 o3 : ProviderOutcome) (tr : TransOutcome)
    (disableFlag kbThrows : Bool) (corpus : Corpus) (query lang : String) : AIResult :=
  match (runProviders (aiProviders o1 o2 o3)).1 with
  | some (name, m, c) =>
    { message := (translateResponse tr m lang).1
      provider := name
      language := lang
      confidence := jsFalsyConf c }
  | none => useKnowledgeBaseFallback disableFlag kbThrows corpus query lang

/-- The provider names invoked by the loop for given outcomes. -/
def providerTrace (o1 o2 o3 : ProviderOutcome) : List String :=
  (runProviders (aiProviders o1 o2 o3)).2

/-! ## Non-emptiness of finalized knowledge-base answers

A scalar that the cleaning chain of `limitResponseLength` can neither
remove nor turn into whitespace survives into the cleaned string; every
text the knowledge engine can emit contains such a scalar, so the
length-limited message is never empty. -/

/-- A scalar untouched by every stage of the cleaning chain. -/
def survivesClean (c : Char) : Bool :=
  !emojiStripChars.contains c && c != '*' && c != '\n' && c != '•' && !isJsWS c

/-- `s` contains a scalar surviving the cleaning chain. -/
def hasSurvivor (s : String) : Bool :=
  s.data.any survivesClean

theorem str_data_append (a b : String) : (a ++ b).data = a.data ++ b.data := rfl

theorem ne_empty_of_hasSurvivor {s : String} (h : hasSurvivor s = true) : s ≠ "" := by
  rcases List.any_eq_true.mp h with ⟨c, hc, _⟩
  intro he
  rw [he] at hc
  exact absurd hc (List.not_mem_nil c)

theorem mem_replaceBullets {c : Char} (h1 : c ≠ '\n') (h2 : c ≠ '•') :
    ∀ l : List Char, c ∈ l → c ∈ replaceBullets l := by
  intro l
  induction l using replaceBullets.induct with
  | case1 => simp
  | case2 d =>
    intro hc
    simpa [replaceBullets] using hc
  | case3 d d2 rest hcond ih =>
    intro hc
    rw [show replaceBullets (d :: d2 :: rest) = ',' :: replaceBullets rest by
      simp [replaceBullets, hcond]]
    rcases List.mem_cons.mp hc with h | h
    · exact absurd (h.trans hcond.1) h1
    · rcases List.mem_cons.mp h with h' | h'
      · exact absurd (h'.trans hcond.2) h2
      · exact List.mem_cons_of_mem _ (ih h')
  | case4 d d2 rest hcond ih =>
    intro hc
    rw [show replaceBullets (d :: d2 :: rest) = d :: replaceBullets (d2 :: rest) by
      simp [replaceBullets, hcond]]
    rcases List.mem_cons.mp hc with h | h
    · exact h ▸ List.mem_cons_self _ _
    · exact List.mem_cons_of_mem _ (ih h)

theorem mem_dropWhile_of_mem {c : Char} {p : Char → Bool} (hc : p c = false) :
    ∀ l : List Char, c ∈ l → c ∈ l.dropWhile p := by
  intro l
  induction l with
  | nil => simp
  | cons a rest ih =>
    intro hm
    by_cases ha : p a = true
    · rw [List.dropWhile_cons_of_pos ha]
      rcases List.mem_cons.mp hm with h | h
      · rw [h] at hc; rw [hc] at ha; exact absurd ha (by simp)
      · exact ih h
    · rw [List.dropWhile_cons_of_neg ha]
      exact hm

theorem mem_trimList_of_mem {c : Char} (hc : isJsWS c = false) {l : List Char}
    (hm : c ∈ l) : c ∈ trimList l := by
  unfold trimList
  have h1 : c ∈ l.dropWhile isJsWS := mem_dropWhile_of_mem hc l hm
  have h2 : c ∈ (l.dropWhile isJsWS).reverse := List.mem_reverse.mpr h1
  have h3 : c ∈ (l.dropWhile isJsWS).reverse.dropWhile isJsWS :=
    mem_dropWhile_of_mem hc _ h2
  exact List.mem_reverse.mpr h3

/-- A surviving scalar of the raw text is still present after the cleaning
chain. -/
theorem mem_cleanData_of_survives {c : Char} (hs : survivesClean c = true)
    {l : List Char} (hm : c ∈ l) : c ∈ cleanData l := by
  unfold survivesClean at hs
  simp only [Bool.and_eq_true, Bool.not_eq_true', bne_iff_ne, ne_eq] at hs
  obtain ⟨⟨⟨⟨hemoji, hstar⟩, hnl⟩, hbullet⟩, hws⟩ := hs
  have hemoji' : c ∉ emojiStripChars := by simpa using hemoji
  unfold cleanData
  apply mem_trimList_of_mem hws
  have h1 : c ∈ l.filter (fun c => !emojiStripChars.contains c) :=
    List.mem_filter.mpr ⟨hm, by simp [hemoji']⟩
  have h2 : c ∈ (l.filter (fun c => !emojiStripChars.contains c)).filter
      (fun c => c != '*') :=
    List.mem_filter.mpr ⟨h1, by simp [hstar]⟩
  have h3 : c ∈ replaceBullets ((l.filter (fun c => !emojiStripChars.contains c)).filter
      (fun c => c != '*')) :=
    mem_replaceBullets hnl hbullet _ h2
  have h4 := List.mem_map_of_mem (fun c => if c = '\n' then ' ' else c) h3
  simpa [hnl] using h4

/-- A string with a surviving scalar cleans to a non-empty scalar list. -/
theorem cleanData_ne_nil_of_hasSurvivor {s : String} (h : hasSurvivor s = true) :
    cleanData s.data ≠ [] := by
  rcases List.any_eq_true.mp h with ⟨c, hc, hsurv⟩
  exact List.ne_nil_of_mem (mem_cleanData_of_survives hsurv hc)

theorem mk_ne_empty_of_ne_nil {l : List Char} (h : l ≠ []) : String.mk l ≠ "" := by
  intro he
  exact h (congrArg String.data he)

/-- The length-limited form of a string with a surviving scalar is never
empty. -/
theorem limitResponseLength_ne_empty {s : String} (h : hasSurvivor s = true) :
    limitResponseLength s 200 ≠ "" := by
  unfold limitResponseLength
  by_cases h1 : s.length ≤ 200
  · simpa [h1] using ne_empty_of_hasSurvivor h
  · simp only [h1, if_false]
    by_cases h2 : 200 < (cleanData s.data).length
    · simp only [h2, if_true]
      intro he
      have hd := congrArg String.data he
      rw [str_data_append] at hd
      rcases List.append_eq_nil.mp hd with ⟨_, htail⟩
      exact absurd htail (by simp [seeDoctorTail])
    · simp only [h2, if_false]
      exact mk_ne_empty_of_ne_nil (cleanData_ne_nil_of_hasSurvivor h)

theorem getFor_hasSurvivor (t : LangText) (h1 : hasSurvivor t.en = true)
    (h2 : hasSurvivor t.hi = true) (h3 : hasSurvivor t.hinglish = true)
    (lang : String) : hasSurvivor (t.getFor lang) = true := by
  unfold LangText.getFor
  split_ifs <;> assumption

theorem joinNL_hasSurvivor {s : String} :
    ∀ l : List String, s ∈ l → hasSurvivor s = true → hasSurvivor (joinNL l) = true := by
  intro l
  induction l with
  | nil => simp
  | cons a rest ih =>
    intro hs hsv
    cases rest with
    | nil =>
      have : s = a := by simpa using hs
      subst this
      simpa [joinNL] using hsv
    | cons b tl =>
      have hj : joinNL (a :: b :: tl) = a ++ "\n" ++ joinNL (b :: tl) := rfl
      rw [hj]
      unfold hasSurvivor
      rw [str_data_append, str_data_append, List.any_append, List.any_append]
      rcases List.mem_cons.mp hs with h | h
      · subst h
        simp [hasSurvivor] at hsv
        simp [List.any_eq_true]
        exact Or.inl (Or.inl hsv)
      · have := ih h hsv
        simp [hasSurvivor] at this
        simp [List.any_eq_true]
        exact Or.inr this

theorem getDefaultResponse_hasSurvivor (lang : String) :
    hasSurvivor (getDefaultResponse lang) = true :=
  getFor_hasSurvivor kbDefaultResponse (by decide) (by decide) (by decide) lang

theorem getDisclaimer_hasSurvivor (lang : String) :
    hasSurvivor (getDisclaimer lang) = true :=
  getFor_hasSurvivor kbDisclaimer (by decide) (by decide) (by decide) lang

theorem aiDefault_hasSurvivor (lang : String) :
    hasSurvivor (aiDefaultResponses.getFor lang) = true :=
  getFor_hasSurvivor aiDefaultResponses (by decide) (by decide) (by decide) lang

theorem formatDiseaseInfo_hasSurvivor (d : DiseaseInfo) (lang : String) :
    hasSurvivor (formatDiseaseInfo d lang) = true := by
  apply joinNL_hasSurvivor (diseaseSections d lang) ?_ (by decide :
    hasSurvivor "**लक्षण / Symptoms:**" = true)
  unfold diseaseSections
  simp [List.mem_append]

theorem formatMultipleDiseaseMatches_hasSurvivor (ms : List (String × DiseaseInfo))
    (lang : String) : hasSurvivor (formatMultipleDiseaseMatches ms lang) = true := by
  unfold formatMultipleDiseaseMatches
  apply joinNL_hasSurvivor _ (List.mem_cons_self _ _)
  unfold multiMatchTitle
  split_ifs <;> decide

theorem getEmergencyContacts_hasSurvivor (corpus : Corpus) (lang : String) :
    hasSurvivor (getEmergencyContacts corpus lang) = true := by
  unfold getEmergencyContacts
  apply joinNL_hasSurvivor _ (List.mem_cons_self _ _)
  unfold ecTitle
  split_ifs <;> decide

theorem getGeneralHealthAdvice_hasSurvivor (topic lang : String) :
    hasSurvivor (getGeneralHealthAdvice topic lang) = true := by
  unfold getGeneralHealthAdvice
  split_ifs
  · exact getFor_hasSurvivor exerciseAdvice (by decide) (by decide) (by decide) lang
  · exact getFor_hasSurvivor dietAdvice (by decide) (by decide) (by decide) lang
  · exact getDefaultResponse_hasSurvivor lang

theorem getDirectSymptomResponse_hasSurvivor {q lang r : String}
    (h : getDirectSymptomResponse q lang = some r) : hasSurvivor r = true := by
  unfold getDirectSymptomResponse at h
  have htab : ∀ p : String × LangText, p ∈ commonSymptomTable →
      hasSurvivor (p.2.getFor lang) = true := by
    intro p hp
    simp only [commonSymptomTable, List.mem_cons, List.not_mem_nil, or_false] at hp
    rcases hp with rfl | rfl | rfl
    · exact getFor_hasSurvivor feverText (by decide) (by decide) (by decide) lang
    · exact getFor_hasSurvivor headacheText (by decide) (by decide) (by decide) lang
    · exact getFor_hasSurvivor coughText (by decide) (by decide) (by decide) lang
  rcases hf1 : commonSymptomTable.find? (fun p =>
      [p.1, p.1 ++ "s", "i have " ++ p.1, p.1 ++ " problem"].any
        (fun keyword => strIncludes q keyword)) with _ | p1
  · rw [hf1] at h
    rcases hf2 : hindiSymptomTable.find? (fun p => strIncludes q p.1) with _ | p2
    · rw [hf2] at h
      exact absurd h (by simp)
    · rw [hf2] at h
      simp only [] at h
      rcases hf3 : commonSymptomTable.find? (fun q' => q'.1 == p2.2) with _ | p3
      · rw [hf3] at h
        exact absurd h (by simp)
      · rw [hf3] at h
        have : r = p3.2.getFor lang := by
          simpa using h.symm
        rw [this]
        exact htab p3 (List.mem_of_find?_eq_some hf3)
  · rw [hf1] at h
    have : r = p1.2.getFor lang := by
      simpa using h.symm
    rw [this]
    exact htab p1 (List.mem_of_find?_eq_some hf1)

theorem searchDiseases_hasSurvivor {corpus : Corpus} {q lang r : String}
    (h : searchDiseases corpus q lang = some r) : hasSurvivor r = true := by
  unfold searchDiseases at h
  rcases Option.map_eq_some'.mp h with ⟨p, _, hr⟩
  rw [← hr]
  exact formatDiseaseInfo_hasSurvivor _ _

theorem searchBySymptoms_hasSurvivor {corpus : Corpus} {q lang r : String}
    (h : searchBySymptoms corpus q lang = some r) : hasSurvivor r = true := by
  unfold searchBySymptoms at h
  rcases hm : symptomMatches corpus q lang with _ | ⟨a, tl⟩
  · rw [hm] at h
    exact absurd h (by simp [symptomMatchResult])
  · rw [hm] at h
    cases tl with
    | nil =>
      have : r = formatDiseaseInfo a.2 lang := by
        simpa [symptomMatchResult] using h.symm
      rw [this]
      exact formatDiseaseInfo_hasSurvivor _ _
    | cons b tl2 =>
      have : r = formatMultipleDiseaseMatches (a :: b :: tl2) lang := by
        simpa [symptomMatchResult] using h.symm
      rw [this]
      exact formatMultipleDiseaseMatches_hasSurvivor _ _

theorem searchGeneralHealth_hasSurvivor {q lang r : String}
    (h : searchGeneralHealth q lang = some r) : hasSurvivor r = true := by
  unfold searchGeneralHealth at h
  rcases Option.map_eq_some'.mp h with ⟨p, _, hr⟩
  rw [← hr]
  exact getGeneralHealthAdvice_hasSurvivor _ _

theorem searchEmergencyInfo_hasSurvivor {corpus : Corpus} {q lang r : String}
    (h : searchEmergencyInfo corpus q lang = some r) : hasSurvivor r = true := by
  unfold searchEmergencyInfo at h
  by_cases hc : kbEmergencyKeywords.any (fun keyword => strIncludes q keyword) = true
  · rw [if_pos hc] at h
    have : r = getEmergencyContacts corpus lang := by simpa using h.symm
    rw [this]
    exact getEmergencyContacts_hasSurvivor _ _
  · rw [if_neg hc] at h
    exact absurd h (by simp)

/-- Every text the knowledge engine can emit contains a scalar that the
cleaning chain preserves. -/
theorem searchHealthInfo_hasSurvivor (corpus : Corpus) (q lang : String) :
    hasSurvivor (searchHealthInfo corpus q lang) = true := by
  rcases h1 : getDirectSymptomResponse (jsToLower q) lang with _ | r1
  · rcases h2 : searchDiseases corpus (jsToLower q) lang with _ | r2
    · rcases h3 : searchBySymptoms corpus (jsToLower q) lang with _ | r3
      · rcases h4 : searchGeneralHealth (jsToLower q) lang with _ | r4
        · rcases h5 : searchEmergencyInfo corpus (jsToLower q) lang with _ | r5
          · simp only [searchHealthInfo, h1, h2, h3, h4, h5]
            exact getDefaultResponse_hasSurvivor lang
          · simp only [searchHealthInfo, h1, h2, h3, h4, h5]
            exact searchEmergencyInfo_hasSurvivor h5
        · simp only [searchHealthInfo, h1, h2, h3, h4]
          exact searchGeneralHealth_hasSurvivor h4
      · simp only [searchHealthInfo, h1, h2, h3]
        exact searchBySymptoms_hasSurvivor h3
    · simp only [searchHealthInfo, h1, h2]
      exact searchDiseases_hasSurvivor h2
  · simp only [searchHealthInfo, h1]
    exact getDirectSymptomResponse_hasSurvivor h1

/-- The knowledge engine never returns an empty string. -/
theorem searchHealthInfo_ne_empty (corpus : Corpus) (q lang : String) :
    searchHealthInfo corpus q lang ≠ "" :=
  ne_empty_of_hasSurvivor (searchHealthInfo_hasSurvivor corpus q lang)

/-- When no stage matches, the engine answers its generic default text. -/
theorem searchHealthInfo_of_noMatch {corpus : Corpus} {q lang : String}
    (h : kbNoMatch corpus q lang = true) :
    searchHealthInfo corpus q lang = getDefaultResponse lang := by
  unfold kbNoMatch at h
  simp only [Bool.and_eq_true, Option.isNone_iff_eq_none] at h
  obtain ⟨⟨⟨⟨h1, h2⟩, h3⟩, h4⟩, h5⟩ := h
  simp only [searchHealthInfo, h1, h2, h3, h4, h5]

theorem trimList_length_le (l : List Char) : (trimList l).length ≤ l.length := by
  unfold trimList
  calc ((l.dropWhile isJsWS).reverse.dropWhile isJsWS).reverse.length
      = ((l.dropWhile isJsWS).reverse.dropWhile isJsWS).length :=
        List.length_reverse _
    _ ≤ (l.dropWhile isJsWS).reverse.length := dropWhile_length_le _ _
    _ = (l.dropWhile isJsWS).length := List.length_reverse _
    _ ≤ l.length := dropWhile_length_le _ _

theorem truncatedCore_length_le (clean : List Char) (maxLength : Nat) :
    (truncatedCore clean maxLength).length ≤ maxLength - 50 := by
  unfold truncatedCore
  have hc1 : (trimList (clean.take (maxLength - 50))).length ≤ maxLength - 50 := by
    calc (trimList (clean.take (maxLength - 50))).length
        ≤ (clean.take (maxLength - 50)).length := trimList_length_le _
      _ ≤ maxLength - 50 := List.length_take_le _ _
  rcases h : lastIndexOfChar '.' (trimList (clean.take (maxLength - 50))) with _ | i
  · exact hc1
  · simp only []
    by_cases hi : 50 < i
    · simp only [hi, if_true]
      calc ((trimList (clean.take (maxLength - 50))).take (i + 1)).length
          ≤ (trimList (clean.take (maxLength - 50))).length := by
            rw [List.length_take]
            exact Nat.min_le_right _ _
        _ ≤ maxLength - 50 := hc1
    · simp only [hi, if_false]
      exact hc1

/-- The claim's "ends at a sentence boundary followed by the fixed tail":
the message ends with one of `'.'`, `'!'`, `'?'` immediately followed by
the tail. -/
def sentenceThenTail (s : String) : Bool :=
  ['.', '!', '?'].any (fun c => List.isSuffixOf (c :: seeDoctorTail.data) s.data)

/-- A 201-scalar answer with no sentence punctuation. -/
def raw201 : String := String.mk (List.replicate 201 'x')

set_option maxRecDepth 4000 in
/-- Counterexample to C5: `raw201` exceeds the 200-scalar cap, yet its
finalized form (150 `x`s followed by the tail) does not end at a sentence
boundary followed by the tail — the code cuts mid-text whenever the
truncated prefix has no `'.'` after position 50, and never considers `'!'`
or `'?'`. -/
theorem limitResponseLength_sentence_boundary_counterexample :
    200 < raw201.length
  ∧ limitResponseLength raw201 200
      = String.mk (List.replicate 150 'x') ++ seeDoctorTail
  ∧ sentenceThenTail (limitResponseLength raw201 200) = false := by
  refine ⟨by decide, by decide, by decide⟩

/-- C5 (amended): answers at or under the 200-scalar cap are returned
unchanged; an answer over the cap is first cleaned
(emoji/markdown stripping, bullet join, newline flattening, trim) — if the
cleaned text fits the cap it is returned as is (without the tail), and
otherwise the message is the truncated core (at most `cap - 50` scalars,
cut back to the last `'.'` only when one occurs after position 50) followed
by the fixed tail `" See doctor if symptoms persist."`, so its length never
exceeds `(cap - 50) +` the tail length. -/
theorem limitResponseLength_truncation_spec (raw : String) :
    (raw.length ≤ 200 → limitResponseLength raw 200 = raw)
  ∧ (200 < raw.length →
      ((cleanData raw.data).length ≤ 200 →
        limitResponseLength raw 200 = String.mk (cleanData raw.data))
      ∧ (200 < (cleanData raw.data).length →
        limitResponseLength raw 200
          = String.mk (truncatedCore (cleanData raw.data) 200) ++ seeDoctorTail
        ∧ (limitResponseLength raw 200).length ≤ 150 + seeDoctorTail.length)) := by
  refine ⟨?_, ?_⟩
  · intro h
    simp [limitResponseLength, h]
  · intro h
    have h' : ¬ raw.length ≤ 200 := Nat.not_le.mpr h
    constructor
    · intro hc
      have hc' : ¬ 200 < (cleanData raw.data).length := Nat.not_lt.mpr hc
      simp [limitResponseLength, h', hc']
    · intro hc
      have hres : limitResponseLength raw 200
          = String.mk (truncatedCore (cleanData raw.data) 200) ++ seeDoctorTail := by
        simp [limitResponseLength, h', hc]
      refine ⟨hres, ?_⟩
      rw [hres]
      have hcore := truncatedCore_length_le (cleanData raw.data) 200
      have hlen : (String.mk (truncatedCore (cleanData raw.data) 200) ++ seeDoctorTail).length
          = (truncatedCore (cleanData raw.data) 200).length + seeDoctorTail.length := by
        show ((String.mk (truncatedCore (cleanData raw.data) 200)
            ++ seeDoctorTail).data).length = _
        rw [str_data_append, List.length_append]
        rfl
      rw [hlen]
      omega

set_option maxRecDepth 4000 in
theorem limitResponseLength_truncation_spec_witness :
    ("ok".length ≤ 200 ∧ limitResponseLength "ok" 200 = "ok")
  ∧ 200 < raw201.length
  ∧ 200 < (cleanData raw201.data).length
  ∧ limitResponseLength raw201 200
      = String.mk (truncatedCore (cleanData raw201.data) 200) ++ seeDoctorTail
  ∧ (limitResponseLength raw201 200).length ≤ 150 + seeDoctorTail.length :=
  ⟨⟨by decide, (limitResponseLength_truncation_spec "ok").1 (by decide)⟩,
    by decide, by decide,
    (((limitResponseLength_truncation_spec raw201).2 (by decide)).2 (by decide)).1,
    (((limitResponseLength_truncation_spec raw201).2 (by decide)).2 (by decide)).2⟩

/-- C2: with the configured provider list (priorities 1, 2, 3 in array
order), when providers 1 and 2 fail (throw, return nothing, or return an
empty/whitespace message) and provider 3 returns a non-empty message `m`,
the pipeline returns the (possibly translated) `m` tagged with
`provider = "openai"`; the invocation trace is exactly every configured
provider once, in configuration order — there is no provider after the
first success to invoke. -/
theorem processHealthQuery_third_provider_success (o1 o2 : ProviderOutcome)
    (r : ProviderResult) (m : String) (tr : TransOutcome) (disableFlag kbThrows : Bool)
    (corpus : Corpus) (query lang : String)
    (h1 : validMessage o1 = none) (h2 : validMessage o2 = none)
    (hm : r.message = some m) (hv : jsTrimStr m ≠ "") :
    processHealthQuery o1 o2 (.returns (some r)) tr disableFlag kbThrows corpus query lang =
      { message := (translateResponse tr m lang).1
        provider := "openai"
        language := lang
        confidence := jsFalsyConf r.confidence }
  ∧ providerTrace o1 o2 (.returns (some r)) = ["gemini", "huggingface", "openai"]
  ∧ (aiProviders o1 o2 (.returns (some r))).map (fun p => p.1)
      = providerTrace o1 o2 (.returns (some r)) := by
  have hv3 : validMessage (.returns (some r)) = some (m, r.confidence) := by
    simp [validMessage, hm, hv]
  refine ⟨?_, ?_, ?_⟩ <;>
    simp [processHealthQuery, providerTrace, runProviders, aiProviders, h1, h2, hv3]

theorem processHealthQuery_third_provider_success_witness :
    validMessage .throws = none
  ∧ validMessage (.returns none) = none
  ∧ (ProviderResult.mk (some "Take rest and fluids") (some 0.9)).message
      = some "Take rest and fluids"
  ∧ jsTrimStr "Take rest and fluids" ≠ ""
  ∧ (processHealthQuery .throws (.returns none)
        (.returns (some (ProviderResult.mk (some "Take rest and fluids") (some 0.9))))
        .throws false false ⟨[], []⟩ "q" "en" =
      { message := (translateResponse .throws "Take rest and fluids" "en").1
        provider := "openai"
        language := "en"
        confidence := jsFalsyConf (some 0.9) }
    ∧ providerTrace .throws (.returns none)
        (.returns (some (ProviderResult.mk (some "Take rest and fluids") (some 0.9))))
        = ["gemini", "huggingface", "openai"]
    ∧ (aiProviders .throws (.returns none)
        (.returns (some (ProviderResult.mk (some "Take rest and fluids") (some 0.9))))).map
          (fun p => p.1)
        = providerTrace .throws (.returns none)
            (.returns (some (ProviderResult.mk (some "Take rest and fluids") (some 0.9))))) :=
  ⟨rfl, rfl, rfl, by decide,
    processHealthQuery_third_provider_success .throws (.returns none)
      (ProviderResult.mk (some "Take rest and fluids") (some 0.9))
      "Take rest and fluids" .throws false false ⟨[], []⟩ "q" "en"
      rfl rfl rfl (by decide)⟩

/-- C4: when every configured provider fails or returns an invalid message
and the knowledge-base fallback runs (flag off, call does not throw), the
knowledge engine's answer — always a non-null string — is returned tagged
with provider `knowledge_base` and confidence exactly 0.5. -/
theorem processHealthQuery_kb_fallback_tags (o1 o2 o3 : ProviderOutcome)
    (tr : TransOutcome) (corpus : Corpus) (query lang : String)
    (h1 : validMessage o1 = none) (h2 : validMessage o2 = none)
    (h3 : validMessage o3 = none) :
    (processHealthQuery o1 o2 o3 tr false false corpus query lang).provider
        = "knowledge_base"
  ∧ (processHealthQuery o1 o2 o3 tr false false corpus query lang).confidence = 0.5 := by
  have hrun : (runProviders (aiProviders o1 o2 o3)).1 = none := by
    simp [runProviders, aiProviders, h1, h2, h3]
  have hne := searchHealthInfo_ne_empty corpus query lang
  constructor <;>
    simp [processHealthQuery, hrun, useKnowledgeBaseFallback, hne]

theorem processHealthQuery_kb_fallback_tags_witness :
    validMessage .throws = none
  ∧ ((processHealthQuery .throws .throws .throws .throws false false ⟨[], []⟩
        "i have fever" "en").provider = "knowledge_base"
    ∧ (processHealthQuery .throws .throws .throws .throws false false ⟨[], []⟩
        "i have fever" "en").confidence = 0.5) :=
  ⟨rfl, processHealthQuery_kb_fallback_tags .throws .throws .throws .throws ⟨[], []⟩
    "i have fever" "en" rfl rfl rfl⟩

/-- Counterexample to C1: with no provider configured to succeed and a
query ("zzz") the knowledge engine has no match for, the pipeline does not
return provider `default` with the apology text — the engine substitutes
its generic default text for a no-match query, that string is non-empty,
and the pipeline therefore tags the result `knowledge_base`. -/
theorem processHealthQuery_noMatch_counterexample :
    kbNoMatch ⟨[], []⟩ "zzz" "en" = true
  ∧ (processHealthQuery .throws .throws .throws .throws false false ⟨[], []⟩
      "zzz" "en").provider = "knowledge_base"
  ∧ (processHealthQuery .throws .throws .throws .throws false false ⟨[], []⟩
      "zzz" "en").provider ≠ "default" := by
  refine ⟨by decide, by decide, by decide⟩

/-- C1 (amended): when no provider returns a valid result and the
knowledge engine has no match for the query, the pipeline returns the
engine's localized generic default text (length-limited to 200) with
provider `knowledge_base` and confidence 0.5; the provider-`default`
apology is returned only when the knowledge-base call itself throws or the
fallback is disabled by the environment flag. -/
theorem processHealthQuery_noMatch_returns_kb_default (o1 o2 o3 : ProviderOutcome)
    (tr : TransOutcome) (corpus : Corpus) (query lang : String)
    (h1 : validMessage o1 = none) (h2 : validMessage o2 = none)
    (h3 : validMessage o3 = none) (hnm : kbNoMatch corpus query lang = true) :
    processHealthQuery o1 o2 o3 tr false false corpus query lang =
      { message := limitResponseLength (getDefaultResponse lang) 200
        provider := "knowledge_base"
        language := lang
        confidence := 0.5 }
  ∧ processHealthQuery o1 o2 o3 tr true false corpus query lang
      = getDefaultErrorResponse lang
  ∧ processHealthQuery o1 o2 o3 tr false true corpus query lang
      = getDefaultErrorResponse lang := by
  have hrun : (runProviders (aiProviders o1 o2 o3)).1 = none := by
    simp [runProviders, aiProviders, h1, h2, h3]
  have hsearch := searchHealthInfo_of_noMatch hnm
  have hne : getDefaultResponse lang ≠ "" :=
    hsearch ▸ searchHealthInfo_ne_empty corpus query lang
  refine ⟨?_, ?_, ?_⟩ <;>
    simp [processHealthQuery, hrun, useKnowledgeBaseFallback, hsearch, hne]

theorem processHealthQuery_noMatch_returns_kb_default_witness :
    validMessage .throws = none
  ∧ kbNoMatch ⟨[], []⟩ "zzz" "en" = true
  ∧ processHealthQuery .throws .throws .throws .throws false false ⟨[], []⟩ "zzz" "en" =
      { message := limitResponseLength (getDefaultResponse "en") 200
        provider := "knowledge_base"
        language := "en"
        confidence := 0.5 } :=
  ⟨rfl, by decide,
    (processHealthQuery_noMatch_returns_kb_default .throws .throws .throws .throws
      ⟨[], []⟩ "zzz" "en" rfl rfl rfl (by decide)).1⟩

/-- The provider reports a well-formed confidence, as every provider module
of the repository does (they attach the constants 0.7, 0.8, 0.9 or 1.0, or
throw). -/
def confWF : ProviderOutcome → Prop
  | .returns (some r) =>
    match r.confidence with
    | some c => 0 ≤ c ∧ c ≤ 1
    | none => True
  | _ => True

theorem validMessage_some_trim {o : ProviderOutcome} {m : String} {c : Option ℚ}
    (h : validMessage o = some (m, c)) : jsTrimStr m ≠ "" := by
  cases o with
  | throws => simp [validMessage] at h
  | returns ro =>
    cases ro with
    | none => simp [validMessage] at h
    | some r =>
      rcases hm : r.message with _ | m'
      · simp [validMessage, hm] at h
      · by_cases ht : jsTrimStr m' = ""
        · simp [validMessage, hm, ht] at h
        · simp [validMessage, hm, ht] at h
          rw [← h.1]
          exact ht

theorem validMessage_some_conf {o : ProviderOutcome} {m : String} {c : Option ℚ}
    (h : validMessage o = some (m, c)) (hw : confWF o) :
    c = none ∨ ∃ q, c = some q ∧ 0 ≤ q ∧ q ≤ 1 := by
  cases o with
  | throws => simp [validMessage] at h
  | returns ro =>
    cases ro with
    | none => simp [validMessage] at h
    | some r =>
      rcases hm : r.message with _ | m'
      · simp [validMessage, hm] at h
      · by_cases ht : jsTrimStr m' = ""
        · simp [validMessage, hm, ht] at h
        · simp [validMessage, hm, ht] at h
          rcases hc : r.confidence with _ | q
          · left
            rw [← h.2, hc]
          · right
            refine ⟨q, by rw [← h.2, hc], ?_⟩
            simp only [confWF, hc] at hw
            exact hw

theorem ne_empty_of_trim_ne_empty {m : String} (h : jsTrimStr m ≠ "") : m ≠ "" := by
  intro he
  subst he
  exact h rfl

theorem translateResponse_fst_ne_empty {m : String} (h : m ≠ "")
    (tr : TransOutcome) (lang : String) : (translateResponse tr m lang).1 ≠ "" := by
  unfold translateResponse
  split_ifs
  · exact h
  · cases tr with
    | throws => exact h
    | returns t =>
      cases t with
      | none => exact h
      | some v =>
        by_cases hv : v = ""
        · simpa [hv] using h
        · simp only [if_neg hv]
          exact hv
  · exact h

theorem jsFalsyConf_bounds {c : Option ℚ}
    (h : c = none ∨ ∃ q, c = some q ∧ 0 ≤ q ∧ q ≤ 1) :
    0 ≤ jsFalsyConf c ∧ jsFalsyConf c ≤ 1 := by
  rcases h with rfl | ⟨q, rfl, hq0, hq1⟩
  · constructor <;> norm_num [jsFalsyConf]
  · by_cases hz : q = 0
    · simp only [jsFalsyConf, hz, if_pos rfl]
      constructor <;> norm_num
    · simp only [jsFalsyConf, if_neg hz]
      exact ⟨hq0, hq1⟩

theorem runProviders_some_cases (o1 o2 o3 : ProviderOutcome) (name m : String)
    (c : Option ℚ) (h : (runProviders (aiProviders o1 o2 o3)).1 = some (name, m, c)) :
    (name = "gemini" ∧ validMessage o1 = some (m, c))
    ∨ (name = "huggingface" ∧ validMessage o2 = some (m, c))
    ∨ (name = "openai" ∧ validMessage o3 = some (m, c)) := by
  rcases hv1 : validMessage o1 with _ | p1
  · rcases hv2 : validMessage o2 with _ | p2
    · rcases hv3 : validMessage o3 with _ | p3
      · simp [runProviders, aiProviders, hv1, hv2, hv3] at h
      · simp [runProviders, aiProviders, hv1, hv2, hv3] at h
        right; right
        exact ⟨h.1.symm, by rw [h.2]⟩
    · simp [runProviders, aiProviders, hv1, hv2] at h
      right; left
      exact ⟨h.1.symm, by rw [h.2]⟩
  · simp [runProviders, aiProviders, hv1] at h
    left
    exact ⟨h.1.symm, by rw [h.2]⟩

/-- C10: for every input and every combination of provider, translation and
knowledge-base outcomes (the embedded pipeline is a total function — no
failure escapes), the result's message is a non-empty string, its provider
tag is one of the five known names, and — providers reporting well-formed
confidences, as the repository's providers do — its confidence lies in
`[0, 1]`. -/
theorem processHealthQuery_result_invariants (o1 o2 o3 : ProviderOutcome)
    (tr : TransOutcome) (disableFlag kbThrows : Bool) (corpus : Corpus)
    (query lang : String)
    (hw1 : confWF o1) (hw2 : confWF o2) (hw3 : confWF o3) :
    (processHealthQuery o1 o2 o3 tr disableFlag kbThrows corpus query lang).message ≠ ""
  ∧ (processHealthQuery o1 o2 o3 tr disableFlag kbThrows corpus query lang).provider
      ∈ (["gemini", "huggingface", "openai", "knowledge_base", "default"] : List String)
  ∧ 0 ≤ (processHealthQuery o1 o2 o3 tr disableFlag kbThrows corpus query lang).confidence
  ∧ (processHealthQuery o1 o2 o3 tr disableFlag kbThrows corpus query lang).confidence
      ≤ 1 := by
  rcases hr : (runProviders (aiProviders o1 o2 o3)).1 with _ | ⟨name, m, c⟩
  · have hfb : processHealthQuery o1 o2 o3 tr disableFlag kbThrows corpus query lang
        = useKnowledgeBaseFallback disableFlag kbThrows corpus query lang := by
      simp [processHealthQuery, hr]
    rw [hfb]
    have hdef : (getDefaultErrorResponse lang).message ≠ ""
        ∧ (getDefaultErrorResponse lang).provider
            ∈ (["gemini", "huggingface", "openai", "knowledge_base", "default"] : List String)
        ∧ 0 ≤ (getDefaultErrorResponse lang).confidence
        ∧ (getDefaultErrorResponse lang).confidence ≤ 1 := by
      refine ⟨ne_empty_of_hasSurvivor (aiDefault_hasSurvivor lang), ?_, ?_, ?_⟩
      · simp [getDefaultErrorResponse]
      · norm_num [getDefaultErrorResponse]
      · norm_num [getDefaultErrorResponse]
    have hkbne := searchHealthInfo_ne_empty corpus query lang
    cases disableFlag with
    | true =>
      have heq : useKnowledgeBaseFallback true kbThrows corpus query lang
          = getDefaultErrorResponse lang := by
        simp [useKnowledgeBaseFallback]
      rw [heq]
      exact hdef
    | false =>
      cases kbThrows with
      | true =>
        have heq : useKnowledgeBaseFallback false true corpus query lang
            = getDefaultErrorResponse lang := by
          simp [useKnowledgeBaseFallback]
        rw [heq]
        exact hdef
      | false =>
        have heq : useKnowledgeBaseFallback false false corpus query lang =
            { message := limitResponseLength (searchHealthInfo corpus query lang) 200
              provider := "knowledge_base"
              language := lang
              confidence := 0.5 } := by
          simp [useKnowledgeBaseFallback, hkbne]
        rw [heq]
        refine ⟨limitResponseLength_ne_empty
          (searchHealthInfo_hasSurvivor corpus query lang), by simp, by norm_num, by norm_num⟩
  · have hres : processHealthQuery o1 o2 o3 tr disableFlag kbThrows corpus query lang
        = { message := (translateResponse tr m lang).1
            provider := name
            language := lang
            confidence := jsFalsyConf c } := by
      simp [processHealthQuery, hr]
    rw [hres]
    rcases runProviders_some_cases o1 o2 o3 name m c hr with
      ⟨hn, hv⟩ | ⟨hn, hv⟩ | ⟨hn, hv⟩ <;>
    · have hm := ne_empty_of_trim_ne_empty (validMessage_some_trim hv)
      have hc := validMessage_some_conf hv (by first | exact hw1 | exact hw2 | exact hw3)
      exact ⟨translateResponse_fst_ne_empty hm tr lang, by simp [hn],
        (jsFalsyConf_bounds hc).1, (jsFalsyConf_bounds hc).2⟩

theorem processHealthQuery_result_invariants_witness :
    confWF .throws
  ∧ ((processHealthQuery .throws .throws .throws .throws false true ⟨[], []⟩
        "" "fr").message ≠ ""
    ∧ (processHealthQuery .throws .throws .throws .throws false true ⟨[], []⟩
        "" "fr").provider
        ∈ (["gemini", "huggingface", "openai", "knowledge_base", "default"] : List String)
    ∧ 0 ≤ (processHealthQuery .throws .throws .throws .throws false true ⟨[], []⟩
        "" "fr").confidence
    ∧ (processHealthQuery .throws .throws .throws .throws false true ⟨[], []⟩
        "" "fr").confidence ≤ 1) :=
  ⟨trivial,
    processHealthQuery_result_invariants .throws .throws .throws .throws false true
      ⟨[], []⟩ "" "fr" trivial trivial trivial⟩
